import Mathlib

/-!
Verification development for the biodiversity bibliography exporter
(`src/znieff.py`, `src/n2000.py`, `src/outils_communs.py`).

The Python code is shallowly embedded: pandas dataframes become lists of
structures whose fields are `Cell := Option String` (`none` models a NaN /
missing value), pure helper functions become Lean functions over `String`
(all character work goes through `String.data` so that every definition
evaluates by kernel reduction), and fallible operations return
`Except ExportErr`.  Python string operations (`strip`, `split`, `replace`,
`upper`, `lower`, `lstrip("0")`, `isdigit`, comparison) are modelled
character-by-character, matching CPython semantics on the ASCII data the
program manipulates.
-/

namespace Biblio

/-! ## Python string primitives (character level) -/

/-- Whitespace test used by Python `str.strip` (ASCII fragment). -/
def isWs (c : Char) : Bool := c.isWhitespace

/-- Python `str.strip()` on a character list: drop leading and trailing whitespace. -/
def trimChars (l : List Char) : List Char :=
  ((l.dropWhile isWs).reverse.dropWhile isWs).reverse

/-- Python `s.strip()`. -/
def pstrip (s : String) : String := ⟨trimChars s.data⟩

/-- The separator normalisation of both parsers:
`raw.replace(",", ";").replace("\n", ";").replace("\t", ";")` acts
character-wise because every pattern is a single character. -/
def sepToSemi (c : Char) : Char :=
  if c = ',' ∨ c = '\n' ∨ c = '\t' then ';' else c

/-- `raw.replace(",", ";").replace("\n", ";").replace("\t", ";")`. -/
def normSeps (s : String) : String := ⟨s.data.map sepToSemi⟩

/-- Python `str.split(sep)` on character lists: `"" ↦ [""]`, empty chunks kept. -/
def splitChars (sep : Char) : List Char → List (List Char)
  | [] => [[]]
  | c :: cs =>
    match splitChars sep cs with
    | [] => [[]]
    | t :: ts => if c = sep then [] :: t :: ts else (c :: t) :: ts

/-- Python `s.split(sep)` for a one-character separator. -/
def pysplit (sep : Char) (s : String) : List String :=
  (splitChars sep s.data).map String.mk

/-- `sep.join` on character lists. -/
def joinListsSep (sep : List Char) : List (List Char) → List Char
  | [] => []
  | [x] => x
  | x :: y :: rest => x ++ sep ++ joinListsSep sep (y :: rest)

/-- Python `sep.join(xs)`. -/
def pyJoin (sep : String) (xs : List String) : String :=
  ⟨joinListsSep sep.data (xs.map String.data)⟩

/-- Python `s.isdigit()` (ASCII fragment: true iff nonempty and all `0`-`9`). -/
def pyIsdigit (s : String) : Bool :=
  !s.data.isEmpty && s.data.all Char.isDigit

/-- Python `s.upper()` (ASCII fragment). -/
def pyUpper (s : String) : String := ⟨s.data.map Char.toUpper⟩

/-- Python `s.lower()` (ASCII fragment). -/
def pyLower (s : String) : String := ⟨s.data.map Char.toLower⟩

/-- Python `s.lstrip("0")`. -/
def lstripZeros (s : String) : String := ⟨s.data.dropWhile (fun c => c = '0')⟩

/-- Strict lexicographic comparison of character lists by code point,
Python's `<` on strings. -/
def lexLt : List Char → List Char → Bool
  | [], [] => false
  | [], _ :: _ => true
  | _ :: _, [] => false
  | a :: as, b :: bs => if a < b then true else if b < a then false else lexLt as bs

/-- Python string `<`. -/
def pyLt (s t : String) : Bool := lexLt s.data t.data

/-- Non-strict string comparison used when sorting with Python semantics. -/
def pyLe (s t : String) : Bool := !pyLt t s

/-- Insert `a` after every element strictly below it: the insertion step of a
stable ascending sort for the strict order `lt`. -/
def insertLt (lt : α → α → Bool) (a : α) : List α → List α
  | [] => [a]
  | b :: bs => if lt b a then b :: insertLt lt a bs else a :: b :: bs

/-- Stable ascending insertion sort by the strict order `lt`: the model of
both Python `sorted` and pandas `sort_values(kind="stable")`. -/
def insSort (lt : α → α → Bool) : List α → List α
  | [] => []
  | x :: xs => insertLt lt x (insSort lt xs)

/-! ## First-seen-order deduplication

Both parsers and every pandas `groupby(sort=False)` / `drop_duplicates(keep="first")`
in the source keep the first occurrence of each key, in encounter order.  The
`keep` predicate models the parsers' `if c and c not in seen` guard (which also
drops elements without recording them as seen). -/

def dedupByAux [DecidableEq κ] (f : α → κ) (keep : α → Bool) (seen : List κ) :
    List α → List α
  | [] => []
  | a :: as =>
    if keep a ∧ f a ∉ seen then a :: dedupByAux f keep (f a :: seen) as
    else dedupByAux f keep seen as

def dedupBy [DecidableEq κ] (f : α → κ) (keep : α → Bool) (l : List α) : List α :=
  dedupByAux f keep [] l

/-! ## Code parsers (`parse_codes_znieff`, `parse_codes_n2000`) -/

/-- The error raised by the parsers; it records the offending token
(the Python `ValueError` message interpolates it). -/
inductive CodeErr where
  | invalidZnieff (token : String)
  | invalidN2000 (token : String)
deriving DecidableEq

/-- The trimmed tokens of the normalised input:
`(x.strip() for x in cleaned.split(";"))`. -/
def tokensOf (raw : String) : List String :=
  (pysplit ';' (normSeps raw)).map pstrip

/-- The surviving tokens: the parser loop keeps each nonempty unseen token. -/
def survivors (raw : String) : List String :=
  dedupBy id (fun t => t ≠ "") (tokensOf raw)

/-- `c.isdigit() and len(c) == 9`. -/
def validZnieffCode (c : String) : Bool :=
  pyIsdigit c && c.data.length == 9

/-- `c.startswith("FR") and len(c) == 9 and c[2:].isdigit()`. -/
def validN2000Code (c : String) : Bool :=
  (c.data.take 2 == ['F', 'R']) && c.data.length == 9 && pyIsdigit ⟨c.data.drop 2⟩

/-- `parse_codes_znieff` (src/znieff.py).  `none` models Python `None`. -/
def parse_codes_znieff (raw : Option String) : Except CodeErr (List String) :=
  match raw with
  | none => .ok []
  | some r =>
    let out := survivors r
    match out.find? (fun c => !validZnieffCode c) with
    | some c => .error (.invalidZnieff c)
    | none => .ok out

/-- `parse_codes_n2000` (src/n2000.py). -/
def parse_codes_n2000 (raw : Option String) : Except CodeErr (List String) :=
  match raw with
  | none => .ok []
  | some r =>
    let out := survivors r
    match out.find? (fun c => !validN2000Code c) with
    | some c => .error (.invalidN2000 c)
    | none => .ok out

example : parse_codes_znieff (some "930020000, 930020000;  123456789") =
    .ok ["930020000", "123456789"] := rfl
example : parse_codes_znieff (some "12345") = .error (.invalidZnieff "12345") := rfl
example : parse_codes_n2000 (some "FR123456") = .error (.invalidN2000 "FR123456") := rfl
example : parse_codes_n2000 (some "FR1234567\nFR7654321") =
    .ok ["FR1234567", "FR7654321"] := rfl
example : parse_codes_znieff (some "") = .ok [] := rfl

/-! ## Columnar data model

A dataframe is a list of rows; a cell is `Option String` (`none` = NaN).
`cellStr` is pandas `astype(str)` (NaN prints as `"nan"`); `cellEmpty` is
`fillna("")` followed by `astype(str)`. -/

abbrev Cell := Option String

def cellStr : Cell → String
  | none => "nan"
  | some s => s

def cellEmpty : Cell → String
  | none => ""
  | some s => s

/-- Row of `ZNIEFF_Especes.parquet` (columns `ESPECES_KEEP_COLS`). -/
structure EspRowRaw where
  nm_sffzn : Cell
  cd_ref : Cell
  cd_nom : Cell
  fg_esp : Cell
  groupe_taxo : Cell
deriving DecidableEq

/-- Row of `ZNIEFF_Habitats.parquet` (columns `HABITATS_KEEP_COLS`). -/
structure HabRowRaw where
  nm_sffzn : Cell
  cd_typo : Cell
  lb_typo : Cell
  cd_hab : Cell
  lb_code : Cell
  lb_hab : Cell
  id_typo_info : Cell
deriving DecidableEq

/-- Row of `ZNIEFF_Habitats_infos.parquet` (columns `ID_TYPO_INFO`, `FG_TYPO`). -/
structure TypoInfoRowRaw where
  id_typo_info : Cell
  fg_typo : Cell
deriving DecidableEq

/-- Row of `ZNIEFF_Infos_generales.parquet` (columns `NM_SFFZN`, `LB_ZN`, `TY_ZONE`). -/
structure ZnInfoRowRaw where
  nm_sffzn : Cell
  lb_zn : Cell
  ty_zone : Cell
deriving DecidableEq

/-- Row of `TAXREFv18.parquet` (columns `CD_NOM`, `LB_NOM`). -/
structure TaxRowRaw where
  cd_nom : Cell
  lb_nom : Cell
deriving DecidableEq

/-- Row of `N2000_Habitats.parquet` (columns `sitecode`, `cd_ue`, `cd_hab`, `pf`). -/
structure N2HabRowRaw where
  sitecode : Cell
  cd_ue : Cell
  cd_hab : Cell
  pf : Cell
deriving DecidableEq

/-- Row of `N2000_Especes_inscrites.parquet` / `N2000_Especes_autres.parquet`. -/
structure N2EspRowRaw where
  sitecode : Cell
  cd_nom : Cell
  cd_ref : Cell
  taxgroup : Cell
deriving DecidableEq

/-- Row of `N2000_Infos_generales.parquet` (columns `sitecode`, `site_name`, `type`). -/
structure N2InfoRowRaw where
  sitecode : Cell
  site_name : Cell
  ty_zone : Cell
deriving DecidableEq

/-- Row of `HABREF_70.parquet` (columns `CD_HAB`, `LB_HAB_FR`). -/
structure HabrefRowRaw where
  cd_hab : Cell
  lb_hab_fr : Cell
deriving DecidableEq

/-- `LocalINPNPaths`: each dataset location is `none` when the underlying
parquet file is absent, `some rows` when it exists with the given content. -/
structure LocalINPNPaths where
  znieff_espece : Option (List EspRowRaw)
  znieff_habitats : Option (List HabRowRaw)
  znieff_habitats_info : Option (List TypoInfoRowRaw)
  znieff_infos_generales : Option (List ZnInfoRowRaw)
  taxref : Option (List TaxRowRaw)
  n2000_habitats : Option (List N2HabRowRaw)
  n2000_especes_inscrites : Option (List N2EspRowRaw)
  n2000_especes_autres : Option (List N2EspRowRaw)
  n2000_infos_generales : Option (List N2InfoRowRaw)
  habref_70 : Option (List HabrefRowRaw)

/-- The `FileNotFoundError` raised by `ensure_exists`, carrying the missing path. -/
inductive ExportErr where
  | sourceNotFound (path : String)
deriving DecidableEq

/-- `ensure_exists` followed by `pd.read_parquet`: reading a dataset location
fails with `sourceNotFound` (naming the file) when the file is absent. -/
def ensureRead (t : Option α) (name : String) : Except ExportErr α :=
  match t with
  | none => .error (.sourceNotFound name)
  | some x => .ok x

/-- `filter_parquet` body: coerce the key column to text
(`astype(str)`, NaN ↦ `"nan"`) and keep rows whose key is in
`set(str(c) for c in codes)`. -/
def filterParquet (keyOf : ρ → Cell) (codes : List String) (rows : List ρ) : List ρ :=
  rows.filter (fun r => cellStr (keyOf r) ∈ codes)

/-- pandas `left.merge(right, how="left")` on a key: each left row produces one
output row per matching right row, or a single row with a missing (`none`)
right part when nothing matches. -/
def mergeLeft [DecidableEq κ] (lk : α → κ) (rk : β → κ) (mk : α → Option β → γ)
    (left : List α) (right : List β) : List γ :=
  left.flatMap (fun a =>
    match right.filter (fun b => rk b = lk a) with
    | [] => [mk a none]
    | ms => ms.map (fun b => mk a (some b)))

/-- The short-circuit test of every exporter:
`{str(c).strip() for c in codes if str(c).strip()}` is empty. -/
def allBlank (codes : List String) : Bool :=
  codes.all (fun c => pstrip c = "")

/-! ## `load_znieff_info` -/

/-- Zone-info row after normalisation and renaming
(`ID ZNIEFF`, `Nom ZNIEFF`, `Type ZNIEFF`). -/
structure ZnInfoRow where
  idZnieff : String
  nomZnieff : Cell
  typeZnieff : Cell

/-- `load_znieff_info`: read, `NM_SFFZN.astype(str).str.strip()`, rename,
`drop_duplicates(subset=["ID ZNIEFF"], keep="first")`. -/
def load_znieff_info (t : Option (List ZnInfoRowRaw)) : Except ExportErr (List ZnInfoRow) := do
  let rows ← ensureRead t "ZNIEFF_Infos_generales.parquet"
  let zn := rows.map (fun r => ZnInfoRow.mk (pstrip (cellStr r.nm_sffzn)) r.lb_zn r.ty_zone)
  return dedupBy ZnInfoRow.idZnieff (fun _ => true) zn

/-! ## ZNIEFF habitat aggregation (`export_habitats_znieff`) -/

/-- Habitat row after the required-column normalisation loop
(`fillna("").astype(str).str.strip()`; the key column went through
`astype(str)` inside `filter_parquet` first, so its NaN prints as `"nan"`),
plus the derived `CD_TYPO_NORM = CD_TYPO.str.lstrip("0")` column. -/
structure HabRow where
  nm : String
  cdTypo : String
  lbTypo : String
  cdHab : String
  lbCode : String
  lbHab : String
  idTypo : String
  cdTypoNorm : String
deriving DecidableEq

def normHabRow (r : HabRowRaw) : HabRow :=
  let ct := pstrip (cellEmpty r.cd_typo)
  { nm := pstrip (cellStr r.nm_sffzn)
    cdTypo := ct
    lbTypo := pstrip (cellEmpty r.lb_typo)
    cdHab := pstrip (cellEmpty r.cd_hab)
    lbCode := pstrip (cellEmpty r.lb_code)
    lbHab := pstrip (cellEmpty r.lb_hab)
    idTypo := pstrip (cellEmpty r.id_typo_info)
    cdTypoNorm := lstripZeros ct }

/-- `group_keys = ["NM_SFFZN", "ID_TYPO_INFO"]`. -/
def habKey (r : HabRow) : String × String := (r.nm, r.idTypo)

/-- The group keys of `groupby(group_keys, sort=False)`: first-seen order. -/
def groupKeysOf (rows : List HabRow) : List (String × String) :=
  dedupBy id (fun _ => true) (rows.map habKey)

/-- The rows of one group, in original row order. -/
def groupRowsOf (rows : List HabRow) (k : String × String) : List HabRow :=
  rows.filter (fun r => habKey r = k)

/-- `join_unique`: distinct non-empty, non-`"nan"` values, sorted, joined with `";"`. -/
def join_unique (values : List String) : String :=
  pyJoin ";"
    (insSort pyLt (dedupBy id (fun _ => true)
        (values.filter (fun v => v ≠ "" ∧ v ≠ "nan"))))

/-- `join_pipe`: non-empty, non-`"nan"` values in row order, joined with `" | "`. -/
def join_pipe (values : List String) : String :=
  pyJoin " | " (values.filter (fun v => v ≠ "" ∧ v ≠ "nan"))

/-- `first_valid`: the Python loop returning the first non-empty,
non-`"nan"` value, or `""`. -/
def first_valid : List String → String
  | [] => ""
  | v :: vs => if v ≠ "" ∧ v ≠ "nan" then v else first_valid vs

/-- One row of the main `groupby(...).agg(...)` result (line 158-168). -/
structure HabAggRow where
  key : String × String
  cdHab : String
  codeTypologie : String
  libTypologie : String
deriving DecidableEq

def mainAgg (rows : List HabRow) : List HabAggRow :=
  (groupKeysOf rows).map (fun k =>
    let g := groupRowsOf rows k
    { key := k
      cdHab := first_valid (g.map HabRow.cdHab)
      codeTypologie := join_unique (g.map HabRow.cdTypo)
      libTypologie := join_unique (g.map HabRow.lbTypo) })

/-- One family-specific `groupby(...).agg(...)` table (EUNIS `"7"`,
Corine `"22"`, HIC `"8"`): key, `join_pipe` of `LB_CODE`, `join_pipe` of `LB_HAB`. -/
def famTable (fam : String) (rows : List HabRow) : List ((String × String) × String × String) :=
  let fr := rows.filter (fun r => r.cdTypoNorm = fam)
  (groupKeysOf fr).map (fun k =>
    let g := groupRowsOf fr k
    (k, join_pipe (g.map HabRow.lbCode), join_pipe (g.map HabRow.lbHab)))

/-- `fg_map = {"A": ..., "D": ..., "P": ...}` with `.get(-, "")`. -/
def fgMapVal : String → String
  | "A" => "Autre habitat"
  | "D" => "Déterminant"
  | "P" => "Périphérique"
  | _ => ""

/-- `fg_lookup`: built from `ZNIEFF_Habitats_infos.parquet` when that file
exists (its absence, unlike every other dataset, is tolerated and yields the
empty dict); `dict(zip(ids, fgs))` keeps the last binding of a repeated key,
and `.get(-, "")` returns `""` on a miss.  Both columns go through
`astype(str).str.strip()`. -/
def fgLookup (t : Option (List TypoInfoRowRaw)) (id : String) : String :=
  match t with
  | none => ""
  | some rows =>
    match (rows.map (fun r =>
        (pstrip (cellStr r.id_typo_info), pstrip (cellStr r.fg_typo)))).reverse.find?
        (fun p => p.1 = id) with
    | some p => p.2
    | none => ""

/-- Output row of `export_habitats_znieff` (the `final_cols` schema, in order;
an empty dataframe with this schema is the empty list of such rows).  All
fields are `String` because the exporter ends with `fillna("")`. -/
structure HabOutRow where
  idZnieff : String
  nomZnieff : String
  typeZnieff : String
  typeHabitat : String
  cdHab : String
  codeTypologie : String
  libTypologie : String
  codeEunis : String
  libEunis : String
  codeCorine : String
  libCorine : String
  codeHic : String
  libHic : String
deriving DecidableEq

/-- Aggregation part of `export_habitats_znieff` (everything after
`filter_parquet` and the emptiness test): normalise, group, aggregate, merge
the three family tables and the zone info, map the habitat-type flag, fill
remaining NaN with `""`. -/
def aggregateHabitatsZnieff (df0 : List HabRowRaw) (fgT : Option (List TypoInfoRowRaw))
    (zinfo : List ZnInfoRow) : List HabOutRow :=
  let rows := df0.map normHabRow
  let m0 := mainAgg rows
  let eu := famTable "7" rows
  let co := famTable "22" rows
  let hi := famTable "8" rows
  let m1 := mergeLeft HabAggRow.key Prod.fst (fun a b => (a, b)) m0 eu
  let m2 := mergeLeft (fun x => x.1.key) Prod.fst (fun a b => (a, b)) m1 co
  let m3 := mergeLeft (fun x => x.1.1.key) Prod.fst (fun a b => (a, b)) m2 hi
  let m4 := mergeLeft (fun x => x.1.1.1.key.1) ZnInfoRow.idZnieff (fun a b => (a, b)) m3 zinfo
  m4.map (fun x =>
    let a := x.1.1.1.1
    { idZnieff := a.key.1
      nomZnieff := cellEmpty (x.2.bind ZnInfoRow.nomZnieff)
      typeZnieff := cellEmpty (x.2.bind ZnInfoRow.typeZnieff)
      typeHabitat := fgMapVal (fgLookup fgT a.key.2)
      cdHab := a.cdHab
      codeTypologie := a.codeTypologie
      libTypologie := a.libTypologie
      codeEunis := cellEmpty (x.1.1.1.2.map (fun p => p.2.1))
      libEunis := cellEmpty (x.1.1.1.2.map (fun p => p.2.2))
      codeCorine := cellEmpty (x.1.1.2.map (fun p => p.2.1))
      libCorine := cellEmpty (x.1.1.2.map (fun p => p.2.2))
      codeHic := cellEmpty (x.1.2.map (fun p => p.2.1))
      libHic := cellEmpty (x.1.2.map (fun p => p.2.2)) })

/-- The output row the aggregation produces for one group: since every right
table of the four left-merges has unique keys (groupby indices; the
deduplicated zone table), each merge contributes the `find?` of its key. -/
def habGroupRow (rows : List HabRow) (fgT : Option (List TypoInfoRowRaw))
    (zinfo : List ZnInfoRow) (a : HabAggRow) : HabOutRow :=
  let eub := (famTable "7" rows).find? (fun b => b.1 = a.key)
  let cob := (famTable "22" rows).find? (fun b => b.1 = a.key)
  let hib := (famTable "8" rows).find? (fun b => b.1 = a.key)
  let zb := zinfo.find? (fun b => b.idZnieff = a.key.1)
  { idZnieff := a.key.1
    nomZnieff := cellEmpty (zb.bind ZnInfoRow.nomZnieff)
    typeZnieff := cellEmpty (zb.bind ZnInfoRow.typeZnieff)
    typeHabitat := fgMapVal (fgLookup fgT a.key.2)
    cdHab := a.cdHab
    codeTypologie := a.codeTypologie
    libTypologie := a.libTypologie
    codeEunis := cellEmpty (eub.map (fun p => p.2.1))
    libEunis := cellEmpty (eub.map (fun p => p.2.2))
    codeCorine := cellEmpty (cob.map (fun p => p.2.1))
    libCorine := cellEmpty (cob.map (fun p => p.2.2))
    codeHic := cellEmpty (hib.map (fun p => p.2.1))
    libHic := cellEmpty (hib.map (fun p => p.2.2)) }

/-- `export_habitats_znieff`. -/
def export_habitats_znieff (paths : LocalINPNPaths) (codes : List String) :
    Except ExportErr (List HabOutRow) := do
  if allBlank codes then return []
  let raw ← ensureRead paths.znieff_habitats "ZNIEFF_Habitats.parquet"
  let df := filterParquet HabRowRaw.nm_sffzn codes raw
  if df.isEmpty then return []
  let zinfo ← load_znieff_info paths.znieff_infos_generales
  return aggregateHabitatsZnieff df paths.znieff_habitats_info zinfo

/-! ## ZNIEFF species export (`export_especes_znieff`) -/

/-- Filtered species row after the `astype(str).str.strip()` normalisation of
`cd_nom`, `cd_ref`, `nm_sffzn` (NaN ↦ `"nan"`; `fg_esp` and `groupe_taxo`
keep their raw cells). -/
structure EspMidRow where
  nm : String
  cdRef : String
  cdNom : String
  fgEsp : Cell
  groupeTaxo : Cell
deriving DecidableEq

def normEspRow (r : EspRowRaw) : EspMidRow :=
  { nm := pstrip (cellStr r.nm_sffzn)
    cdRef := pstrip (cellStr r.cd_ref)
    cdNom := pstrip (cellStr r.cd_nom)
    fgEsp := r.fg_esp
    groupeTaxo := r.groupe_taxo }

/-- `fg_map` of the species export, as a partial map (`.map(fg_map)`). -/
def fgEspMapVal : String → Option String
  | "A" => some "Autre espèce"
  | "E" => some "Autre espèce à enjeux"
  | "D" => some "Déterminante"
  | "C" => some "Confidentielle"
  | _ => none

/-- `df["fg_esp"].astype(str).str.strip().map(fg_map).fillna(df["fg_esp"])`:
a mapped label when the stripped text is a known flag, otherwise the original
raw cell (the `fillna` argument is the not-yet-reassigned column). -/
def typeEspeceOf (c : Cell) : Cell :=
  match fgEspMapVal (pstrip (cellStr c)) with
  | some l => some l
  | none => c

/-- Output row of `export_especes_znieff` (`final_cols` order).  Fields that
pandas can leave as NaN (no terminal `fillna` in this exporter) stay `Cell`. -/
structure EspZnOutRow where
  idZnieff : String
  nomZnieff : Cell
  typeZnieff : Cell
  groupeTaxo : Cell
  nomScientifique : Cell
  cdRef : String
  cdNom : String
  typeEspece : Cell
deriving DecidableEq

/-- Comparison of two cells under pandas `sort_values` semantics:
string order, NaN sorted last. -/
def cellLt : Cell → Cell → Bool
  | some a, some b => pyLt a b
  | some _, none => true
  | _, _ => false

/-- The strict two-key sort order of `sort_values(by=["Groupe taxonomique",
"Nom scientifique"])`. -/
def espKeyLt (a b : EspZnOutRow) : Bool :=
  cellLt a.groupeTaxo b.groupeTaxo ||
    (!cellLt a.groupeTaxo b.groupeTaxo && !cellLt b.groupeTaxo a.groupeTaxo &&
      cellLt a.nomScientifique b.nomScientifique)

/-- Reflexive closure used by the stable sort. -/
def espKeyLe (a b : EspZnOutRow) : Bool := !espKeyLt b a

/-- `export_especes_znieff` up to (excluding) the final
`sort_values(..., kind="stable")`. -/
def especesZnieffRows (paths : LocalINPNPaths) (codes : List String) :
    Except ExportErr (List EspZnOutRow) := do
  if allBlank codes then return []
  let raw ← ensureRead paths.znieff_espece "ZNIEFF_Especes.parquet"
  let df := filterParquet EspRowRaw.nm_sffzn codes raw
  if df.isEmpty then return []
  let tax ← ensureRead paths.taxref "TAXREFv18.parquet"
  let taxN := tax.map (fun t => (pstrip (cellStr t.cd_nom), t.lb_nom))
  let dfN := df.map normEspRow
  let m1 := mergeLeft EspMidRow.cdNom Prod.fst (fun a b => (a, b)) dfN taxN
  let zinfo ← load_znieff_info paths.znieff_infos_generales
  let m2 := mergeLeft (fun x => x.1.nm) ZnInfoRow.idZnieff (fun a b => (a, b)) m1 zinfo
  return m2.map (fun x =>
    { idZnieff := x.1.1.nm
      nomZnieff := x.2.bind ZnInfoRow.nomZnieff
      typeZnieff := x.2.bind ZnInfoRow.typeZnieff
      groupeTaxo := x.1.1.groupeTaxo
      nomScientifique := x.1.2.bind Prod.snd
      cdRef := x.1.1.cdRef
      cdNom := x.1.1.cdNom
      typeEspece := typeEspeceOf x.1.1.fgEsp })

/-- `export_especes_znieff`: the enriched rows, stably sorted by
(`Groupe taxonomique`, `Nom scientifique`). -/
def export_especes_znieff (paths : LocalINPNPaths) (codes : List String) :
    Except ExportErr (List EspZnOutRow) :=
  (especesZnieffRows paths codes).map (fun rows => insSort espKeyLt rows)

/-! ## Natura 2000 exporters -/

/-- Zone-info row after `load_n2000_info`: `sitecode` upper-cased and
stripped, `type` passed through `{"A": "ZPS", "B": "pSIC/SIC/ZSC"}` with
fallback to the original cell.  No deduplication here (unlike the ZNIEFF
loader). -/
structure N2InfoRow where
  sitecode : String
  siteName : Cell
  tyZone : Cell
deriving DecidableEq

def typeMapVal : String → Option String
  | "A" => some "ZPS"
  | "B" => some "pSIC/SIC/ZSC"
  | _ => none

def load_n2000_info (t : Option (List N2InfoRowRaw)) : Except ExportErr (List N2InfoRow) := do
  let rows ← ensureRead t "N2000_Infos_generales.parquet"
  return rows.map (fun r =>
    { sitecode := pyUpper (pstrip (cellStr r.sitecode))
      siteName := r.site_name
      tyZone :=
        match typeMapVal (pstrip (cellStr r.ty_zone)) with
        | some l => some l
        | none => r.ty_zone })

/-- `{str(c).strip().upper() for c in codes if str(c).strip()}`, as a list. -/
def n2CodeSet (codes : List String) : List String :=
  (codes.filter (fun c => pstrip c ≠ "")).map (fun c => pyUpper (pstrip c))

/-- Filtered N2000 habitat row after normalising `sitecode`
(`astype(str).str.strip().str.upper()`) and `cd_hab` (`astype(str).str.strip()`). -/
structure N2HabMidRow where
  site : String
  cdUe : Cell
  cdHab : String
  pf : Cell
deriving DecidableEq

/-- `pf_map = {"true": "Oui", "false": "Non"}`. -/
def pfMapVal : String → Option String
  | "true" => some "Oui"
  | "false" => some "Non"
  | _ => none

/-- `Forme prioritaire`: `astype(str).str.strip().str.lower().map(pf_map)`
with `fillna` falling back to the original cell. -/
def pfOf (c : Cell) : Cell :=
  match pfMapVal (pyLower (pstrip (cellStr c))) with
  | some l => some l
  | none => c

/-- Output row of `export_habitats_n2000` (`final_cols` order); no terminal
`fillna`, so unmatched joins stay `none`. -/
structure N2HabOutRow where
  idN2000 : String
  nomSite : Cell
  typeZone : Cell
  codeHic : Cell
  libHic : Cell
  formePrioritaire : Cell
  cdHab : String
deriving DecidableEq

/-- `export_habitats_n2000`. -/
def export_habitats_n2000 (paths : LocalINPNPaths) (codes : List String) :
    Except ExportErr (List N2HabOutRow) := do
  if allBlank codes then return []
  let raw ← ensureRead paths.n2000_habitats "N2000_Habitats.parquet"
  let df := (raw.map (fun r =>
      N2HabMidRow.mk (pyUpper (pstrip (cellStr r.sitecode))) r.cd_ue
        (pstrip (cellStr r.cd_hab)) r.pf)).filter
      (fun r => r.site ∈ n2CodeSet codes)
  if df.isEmpty then return []
  let habref ← ensureRead paths.habref_70 "HABREF_70.parquet"
  let habrefN := habref.map (fun h => (pstrip (cellStr h.cd_hab), h.lb_hab_fr))
  let m1 := mergeLeft N2HabMidRow.cdHab Prod.fst (fun a b => (a, b)) df habrefN
  let infos ← load_n2000_info paths.n2000_infos_generales
  let m2 := mergeLeft (fun x => x.1.site) N2InfoRow.sitecode (fun a b => (a, b)) m1 infos
  return m2.map (fun x =>
    { idN2000 := x.1.1.site
      nomSite := x.2.bind N2InfoRow.siteName
      typeZone := x.2.bind N2InfoRow.tyZone
      codeHic := x.1.1.cdUe
      libHic := x.1.2.bind Prod.snd
      formePrioritaire := pfOf x.1.1.pf
      cdHab := x.1.1.cdHab })

/-- `taxgroup_map` of the N2000 species export. -/
def taxgroupMapVal : String → Option String
  | "A" => some "Amphibiens"
  | "B" => some "Oiseaux"
  | "F" => some "Poissons"
  | "I" => some "Invertébrés"
  | "M" => some "Mammifères"
  | "P" => some "Plantes"
  | "R" => some "Reptiles"
  | _ => none

/-- Concatenated-and-filtered N2000 species row after the
`astype(str).str.strip()` normalisations; `typeEspece` is the provenance tag
(`"Espèce inscrite"` / `"Espèce autre"`) added before concatenation. -/
structure N2EspMidRow where
  site : String
  cdNom : String
  cdRef : String
  taxgroup : String
  typeEspece : String
deriving DecidableEq

/-- Output row of `export_especes_n2000` (`final_cols` order). -/
structure N2EspOutRow where
  idN2000 : String
  nomSite : Cell
  typeZone : Cell
  groupeTaxo : String
  nomScientifique : Cell
  cdNom : String
  cdRef : String
  typeEspece : String
deriving DecidableEq

/-- Tag and normalise one source species table before/after `pd.concat`:
the provenance column is added first, the `sitecode`/`cd_nom`/`cd_ref`/`taxgroup`
normalisations are applied to the concatenated frame. -/
def n2EspNorm (tag : String) (rows : List N2EspRowRaw) : List N2EspMidRow :=
  rows.map (fun r =>
    { site := pyUpper (pstrip (cellStr r.sitecode))
      cdNom := pstrip (cellStr r.cd_nom)
      cdRef := pstrip (cellStr r.cd_ref)
      taxgroup := pstrip (cellStr r.taxgroup)
      typeEspece := tag })

/-- `export_especes_n2000`. -/
def export_especes_n2000 (paths : LocalINPNPaths) (codes : List String) :
    Except ExportErr (List N2EspOutRow) := do
  if allBlank codes then return []
  let inscrites ← ensureRead paths.n2000_especes_inscrites "N2000_Especes_inscrites.parquet"
  let autres ← ensureRead paths.n2000_especes_autres "N2000_Especes_autres.parquet"
  let concatd := n2EspNorm "Espèce inscrite" inscrites ++ n2EspNorm "Espèce autre" autres
  let df := concatd.filter (fun r => r.site ∈ n2CodeSet codes)
  if df.isEmpty then return []
  let tax ← ensureRead paths.taxref "TAXREFv18.parquet"
  let taxN := tax.map (fun t => (pstrip (cellStr t.cd_nom), t.lb_nom))
  let m1 := mergeLeft N2EspMidRow.cdNom Prod.fst (fun a b => (a, b)) df taxN
  let infos ← load_n2000_info paths.n2000_infos_generales
  let m2 := mergeLeft (fun x => x.1.site) N2InfoRow.sitecode (fun a b => (a, b)) m1 infos
  return m2.map (fun x =>
    { idN2000 := x.1.1.site
      nomSite := x.2.bind N2InfoRow.siteName
      typeZone := x.2.bind N2InfoRow.tyZone
      groupeTaxo := (taxgroupMapVal x.1.1.taxgroup).getD x.1.1.taxgroup
      nomScientifique := x.1.2.bind Prod.snd
      cdNom := x.1.1.cdNom
      cdRef := x.1.1.cdRef
      typeEspece := x.1.1.typeEspece })

/-! ## `write_excel_output` -/

/-- The `ValueError("Aucune donnée trouvée pour les codes saisis")` of
`write_excel_output` (the `EmptyResultSet` condition of the spec). -/
inductive WriteErr where
  | emptyResultSet
deriving DecidableEq

/-- The externally visible side effects of `write_excel_output`, in program
order: `out_xlsx.parent.mkdir(...)` then the spreadsheet serialisation. -/
inductive WriteStep where
  | createOutputDir
  | writeWorkbook
deriving DecidableEq

/-- `write_excel_output`: the two N2000 arguments default to `None`
(converted to empty frames); if all four frames are empty the function raises
before performing any side effect, otherwise it creates the output directory
and writes the workbook.  An `.error` result therefore carries no steps at
all: the emptiness check precedes `mkdir` in the source. -/
def write_excel_output (hz : List HabOutRow) (ez : List EspZnOutRow)
    (hn : Option (List N2HabOutRow)) (en : Option (List N2EspOutRow)) :
    Except WriteErr (List WriteStep) :=
  let hn := hn.getD []
  let en := en.getD []
  if hz.isEmpty && ez.isEmpty && hn.isEmpty && en.isEmpty then
    .error .emptyResultSet
  else
    .ok [.createOutputDir, .writeWorkbook]

instance [DecidableEq ε] [DecidableEq α] : DecidableEq (Except ε α) := fun x y =>
  match x, y with
  | .ok a, .ok b =>
    if h : a = b then isTrue (by rw [h]) else isFalse (by simp [h])
  | .error a, .error b =>
    if h : a = b then isTrue (by rw [h]) else isFalse (by simp [h])
  | .ok _, .error _ => isFalse (by simp)
  | .error _, .ok _ => isFalse (by simp)

/-! ## General lemmas: `find?`, `mergeLeft` -/

theorem find?_eq_head?_filter (p : α → Bool) (l : List α) :
    l.find? p = (l.filter p).head? := by
  induction l with
  | nil => rfl
  | cons a l ih =>
    rw [List.find?_cons, List.filter_cons]
    by_cases h : p a = true
    · rw [if_pos h, h]; rfl
    · rw [if_neg h]
      cases hpa : p a with
      | true => exact absurd hpa h
      | false => exact ih

/-- The per-row block of `mergeLeft` is never empty. -/
theorem mergeBlock_length_pos [DecidableEq κ] (rk : β → κ)
    (mk : α → Option β → γ) (right : List β) (a : α) (k : κ) :
    1 ≤ (match right.filter (fun b => rk b = k) with
      | [] => [mk a none]
      | ms => ms.map (fun b => mk a (some b))).length := by
  cases hf : right.filter (fun b => rk b = k) with
  | nil => simp
  | cons b bs => simp

theorem length_le_mergeLeft [DecidableEq κ] (lk : α → κ) (rk : β → κ)
    (mk : α → Option β → γ) (left : List α) (right : List β) :
    left.length ≤ (mergeLeft lk rk mk left right).length := by
  induction left with
  | nil => simp [mergeLeft]
  | cons a l ih =>
    have h1 := mergeBlock_length_pos rk mk right a (lk a)
    have : mergeLeft lk rk mk (a :: l) right =
        (match right.filter (fun b => rk b = lk a) with
          | [] => [mk a none]
          | ms => ms.map (fun b => mk a (some b))) ++ mergeLeft lk rk mk l right := by
      simp only [mergeLeft, List.flatMap_cons]
    rw [this, List.length_append, List.length_cons]
    omega

theorem mem_mergeLeft_of_no_match [DecidableEq κ] (lk : α → κ) (rk : β → κ)
    (mk : α → Option β → γ) (left : List α) (right : List β) (a : α)
    (ha : a ∈ left) (hf : right.filter (fun b => rk b = lk a) = []) :
    mk a none ∈ mergeLeft lk rk mk left right := by
  simp only [mergeLeft, List.mem_flatMap]
  exact ⟨a, ha, by simp [hf]⟩

theorem exists_mem_mergeLeft [DecidableEq κ] (lk : α → κ) (rk : β → κ)
    (mk : α → Option β → γ) (left : List α) (right : List β) (a : α)
    (ha : a ∈ left) :
    ∃ ob, mk a ob ∈ mergeLeft lk rk mk left right := by
  cases hf : right.filter (fun b => rk b = lk a) with
  | nil =>
    exact ⟨none, mem_mergeLeft_of_no_match lk rk mk left right a ha hf⟩
  | cons b bs =>
    refine ⟨some b, ?_⟩
    simp only [mergeLeft, List.mem_flatMap]
    exact ⟨a, ha, by simp [hf]⟩

theorem filter_key_length_le_one [DecidableEq κ] (rk : β → κ) (right : List β)
    (h : (right.map rk).Nodup) (k : κ) :
    (right.filter (fun b => rk b = k)).length ≤ 1 := by
  induction right with
  | nil => simp
  | cons b bs ih =>
    simp only [List.map_cons, List.nodup_cons] at h
    rw [List.filter_cons]
    by_cases hb : rk b = k
    · have hnil : bs.filter (fun x => decide (rk x = k)) = [] := by
        rw [List.filter_eq_nil_iff]
        intro x hx hxk
        simp only [decide_eq_true_eq] at hxk
        have : rk b ∈ bs.map rk := by
          rw [hb, ← hxk]
          exact List.mem_map_of_mem rk hx
        exact h.1 this
      simp [hb, hnil]
    · rw [if_neg (by simpa using hb)]
      exact ih h.2

theorem mergeLeft_eq_map [DecidableEq κ] (lk : α → κ) (rk : β → κ)
    (mk : α → Option β → γ) (left : List α) (right : List β)
    (h : ∀ k, (right.filter (fun b => rk b = k)).length ≤ 1) :
    mergeLeft lk rk mk left right =
      left.map (fun a => mk a (right.find? (fun b => rk b = lk a))) := by
  induction left with
  | nil => rfl
  | cons a l ih =>
    have hx := h (lk a)
    have hstep : mergeLeft lk rk mk (a :: l) right =
        (match right.filter (fun b => rk b = lk a) with
          | [] => [mk a none]
          | ms => ms.map (fun b => mk a (some b))) ++ mergeLeft lk rk mk l right := by
      simp only [mergeLeft, List.flatMap_cons]
    rw [hstep, ih, List.map_cons]
    have hhd : (match right.filter (fun b => rk b = lk a) with
        | [] => [mk a none]
        | ms => ms.map (fun b => mk a (some b))) =
        [mk a (right.find? (fun b => rk b = lk a))] := by
      rw [find?_eq_head?_filter]
      cases hfil : right.filter (fun b => rk b = lk a) with
      | nil => simp
      | cons b bs =>
        rw [hfil] at hx
        have hbs : bs = [] := by
          simp only [List.length_cons] at hx
          exact List.eq_nil_of_length_eq_zero (by omega)
        subst hbs
        simp
    rw [hhd]
    rfl

/-! ## General lemmas: first-seen deduplication -/

theorem dedupByAux_sublist [DecidableEq κ] (f : α → κ) (keep : α → Bool)
    (seen : List κ) (l : List α) : (dedupByAux f keep seen l).Sublist l := by
  induction l generalizing seen with
  | nil => simp [dedupByAux]
  | cons a as ih =>
    simp only [dedupByAux]
    by_cases h : keep a = true ∧ f a ∉ seen
    · simp only [if_pos h]
      exact (ih (f a :: seen)).cons₂ a
    · simp only [if_neg h]
      exact (ih seen).cons a

theorem mem_dedupByAux_imp [DecidableEq κ] (f : α → κ) (keep : α → Bool)
    (seen : List κ) (l : List α) (a : α)
    (ha : a ∈ dedupByAux f keep seen l) :
    a ∈ l ∧ keep a = true ∧ f a ∉ seen := by
  induction l generalizing seen with
  | nil => simp [dedupByAux] at ha
  | cons x xs ih =>
    simp only [dedupByAux] at ha
    by_cases h : keep x = true ∧ f x ∉ seen
    · rw [if_pos h] at ha
      rcases List.mem_cons.mp ha with rfl | ha'
      · exact ⟨List.mem_cons_self _ _, h.1, h.2⟩
      · obtain ⟨h1, h2, h3⟩ := ih (f x :: seen) ha'
        exact ⟨List.mem_cons_of_mem _ h1, h2, fun hs => h3 (List.mem_cons_of_mem _ hs)⟩
    · rw [if_neg h] at ha
      obtain ⟨h1, h2, h3⟩ := ih seen ha
      exact ⟨List.mem_cons_of_mem _ h1, h2, h3⟩

theorem dedupByAux_keys_nodup [DecidableEq κ] (f : α → κ) (keep : α → Bool)
    (seen : List κ) (l : List α) :
    ((dedupByAux f keep seen l).map f).Nodup := by
  induction l generalizing seen with
  | nil => simp [dedupByAux]
  | cons x xs ih =>
    simp only [dedupByAux]
    by_cases h : keep x = true ∧ f x ∉ seen
    · rw [if_pos h]
      simp only [List.map_cons, List.nodup_cons]
      refine ⟨?_, ih (f x :: seen)⟩
      intro hmem
      obtain ⟨a, ha, hfa⟩ := List.mem_map.mp hmem
      have := (mem_dedupByAux_imp f keep _ _ a ha).2.2
      exact this (hfa ▸ List.mem_cons_self _ _)
    · rw [if_neg h]; exact ih seen

theorem mem_dedupById_of [DecidableEq α] (keep : α → Bool) (l : List α) (a : α)
    (h2 : keep a = true) :
    ∀ seen : List α, a ∈ l → a ∉ seen → a ∈ dedupByAux id keep seen l := by
  induction l with
  | nil => intro seen h1 _; simp at h1
  | cons x xs ih =>
    intro seen h1 h3
    simp only [dedupByAux]
    rcases List.mem_cons.mp h1 with rfl | h1'
    · rw [if_pos ⟨h2, h3⟩]; exact List.mem_cons_self _ _
    · by_cases h : keep x = true ∧ (id x) ∉ seen
      · rw [if_pos h]
        by_cases hax : a = x
        · subst hax; exact List.mem_cons_self _ _
        · exact List.mem_cons_of_mem _
            (ih (x :: seen) h1' (fun hs => (List.mem_cons.mp hs).elim hax h3))
      · rw [if_neg h]; exact ih seen h1' h3

theorem mem_dedupById [DecidableEq α] (keep : α → Bool) (seen : List α)
    (l : List α) (a : α) :
    a ∈ dedupByAux id keep seen l ↔ a ∈ l ∧ keep a = true ∧ a ∉ seen := by
  constructor
  · exact fun h => mem_dedupByAux_imp id keep seen l a h
  · rintro ⟨h1, h2, h3⟩
    exact mem_dedupById_of keep l a h2 seen h1 h3

theorem dedupByAux_eq_self [DecidableEq α] (keep : α → Bool) (l : List α)
    (hnd : l.Nodup) (hk : ∀ a ∈ l, keep a = true) :
    ∀ seen : List α, (∀ a ∈ l, a ∉ seen) → dedupByAux id keep seen l = l := by
  induction l with
  | nil => intro seen _; rfl
  | cons x xs ih =>
    intro seen hs
    simp only [List.nodup_cons] at hnd
    simp only [dedupByAux, id]
    rw [if_pos ⟨hk x (List.mem_cons_self _ _), hs x (List.mem_cons_self _ _)⟩]
    congr 1
    refine ih hnd.2 (fun a ha => hk a (List.mem_cons_of_mem _ ha)) (x :: seen)
      (fun a ha hsa => ?_)
    rcases List.mem_cons.mp hsa with rfl | hsa'
    · exact hnd.1 ha
    · exact hs a (List.mem_cons_of_mem _ ha) hsa'

/-! ## General lemmas: the stable insertion sort -/

theorem insertLt_perm (lt : α → α → Bool) (a : α) (l : List α) :
    (insertLt lt a l).Perm (a :: l) := by
  induction l with
  | nil => exact List.Perm.refl _
  | cons b bs ih =>
    simp only [insertLt]
    by_cases h : lt b a = true
    · rw [if_pos h]
      exact (ih.cons b).trans (List.Perm.swap a b bs)
    · rw [if_neg h]

theorem insSort_perm (lt : α → α → Bool) (l : List α) :
    (insSort lt l).Perm l := by
  induction l with
  | nil => exact List.Perm.refl _
  | cons x xs ih =>
    exact (insertLt_perm lt x (insSort lt xs)).trans (ih.cons x)

theorem sublist_insertLt (lt : α → α → Bool) (x : α) {s l : List α}
    (h : s.Sublist l) : s.Sublist (insertLt lt x l) := by
  induction l generalizing s with
  | nil =>
    cases h
    exact List.nil_sublist _
  | cons c cs ih =>
    simp only [insertLt]
    by_cases hc : lt c x = true
    · rw [if_pos hc]
      cases h with
      | cons _ h' => exact (ih h').cons c
      | cons₂ _ h' => exact (ih h').cons₂ c
    · rw [if_neg hc]
      exact h.cons x

theorem pair_sublist_insertLt (lt : α → α → Bool) (x b : α) (l : List α)
    (hb : b ∈ l) (hbx : lt b x = false) :
    ([x, b]).Sublist (insertLt lt x l) := by
  induction l with
  | nil => simp at hb
  | cons c cs ih =>
    simp only [insertLt]
    by_cases hc : lt c x = true
    · rw [if_pos hc]
      rcases List.mem_cons.mp hb with rfl | hb'
      · exact absurd hc (by rw [hbx]; simp)
      · exact (ih hb').cons c
    · rw [if_neg hc]
      exact (List.singleton_sublist.mpr hb).cons₂ x

theorem insSort_stable (lt : α → α → Bool) (l : List α) (a b : α)
    (h : lt b a = false) (hab : ([a, b]).Sublist l) :
    ([a, b]).Sublist (insSort lt l) := by
  induction l with
  | nil => cases hab
  | cons x xs ih =>
    simp only [insSort]
    cases hab with
    | cons _ h' => exact sublist_insertLt lt x (ih h')
    | cons₂ _ h' =>
      have hb : b ∈ insSort lt xs :=
        ((insSort_perm lt xs).mem_iff).mpr (List.singleton_sublist.mp h')
      exact pair_sublist_insertLt lt a b (insSort lt xs) hb h

theorem pairwise_insertLt (lt : α → α → Bool)
    (hasymm : ∀ a b, lt a b = true → lt b a = false)
    (htrans : ∀ a b c, lt b a = false → lt c b = false → lt c a = false)
    (x : α) (l : List α) (hl : l.Pairwise (fun a b => lt b a = false)) :
    (insertLt lt x l).Pairwise (fun a b => lt b a = false) := by
  induction l with
  | nil => simp [insertLt]
  | cons c cs ih =>
    simp only [insertLt]
    rcases List.pairwise_cons.mp hl with ⟨hc, hcs⟩
    by_cases hcx : lt c x = true
    · rw [if_pos hcx]
      refine List.pairwise_cons.mpr ⟨?_, ih hcs⟩
      intro y hy
      rcases List.mem_cons.mp (((insertLt_perm lt x cs).mem_iff).mp hy) with rfl | hyc
      · exact hasymm c y hcx
      · exact hc y hyc
    · rw [if_neg hcx]
      refine List.pairwise_cons.mpr ⟨?_, hl⟩
      intro y hy
      rcases List.mem_cons.mp hy with rfl | hyc
      · simpa using hcx
      · exact htrans x c y (by simpa using hcx) (hc y hyc)

theorem sorted_insSort (lt : α → α → Bool)
    (hasymm : ∀ a b, lt a b = true → lt b a = false)
    (htrans : ∀ a b c, lt b a = false → lt c b = false → lt c a = false)
    (l : List α) :
    (insSort lt l).Pairwise (fun a b => lt b a = false) := by
  induction l with
  | nil => simp [insSort]
  | cons x xs ih => exact pairwise_insertLt lt hasymm htrans x (insSort lt xs) ih

/-! ## Tokenisation lemmas for the parsers -/

theorem dropWhile_of_forall_not (p : α → Bool) (l : List α)
    (h : ∀ c ∈ l, p c = false) : l.dropWhile p = l := by
  cases l with
  | nil => rfl
  | cons a as =>
    rw [List.dropWhile_cons, if_neg]
    rw [h a (List.mem_cons_self _ _)]
    simp

theorem trimChars_eq_self (x : List Char) (h : ∀ c ∈ x, isWs c = false) :
    trimChars x = x := by
  unfold trimChars
  rw [dropWhile_of_forall_not isWs x h, dropWhile_of_forall_not isWs x.reverse
    (fun c hc => h c (List.mem_reverse.mp hc)), List.reverse_reverse]

theorem splitChars_ne_nil (sep : Char) (l : List Char) : splitChars sep l ≠ [] := by
  cases l with
  | nil => simp [splitChars]
  | cons c cs =>
    simp only [splitChars]
    cases h : splitChars sep cs with
    | nil => simp
    | cons t ts =>
      by_cases hc : c = sep
      · simp [hc]
      · simp [hc]

theorem splitChars_no_sep (sep : Char) (x : List Char)
    (hx : ∀ c ∈ x, c ≠ sep) : splitChars sep x = [x] := by
  induction x with
  | nil => rfl
  | cons c cs ih =>
    have h1 : splitChars sep cs = [cs] := ih (fun d hd => hx d (List.mem_cons_of_mem _ hd))
    simp only [splitChars, h1]
    rw [if_neg (hx c (List.mem_cons_self _ _))]

theorem splitChars_cons_eq (sep c : Char) (cs t : List Char) (ts : List (List Char))
    (h : splitChars sep cs = t :: ts) :
    splitChars sep (c :: cs) = if c = sep then [] :: t :: ts else (c :: t) :: ts := by
  simp only [splitChars, h]

theorem splitChars_sep_append (sep : Char) (x r : List Char)
    (hx : ∀ c ∈ x, c ≠ sep) :
    splitChars sep (x ++ sep :: r) = x :: splitChars sep r := by
  induction x with
  | nil =>
    cases h : splitChars sep r with
    | nil => exact absurd h (splitChars_ne_nil sep r)
    | cons t ts =>
      rw [List.nil_append, splitChars_cons_eq sep sep r t ts h, if_pos rfl, ← h]
  | cons c cs ih =>
    have h1 : splitChars sep (cs ++ sep :: r) = cs :: splitChars sep r :=
      ih (fun d hd => hx d (List.mem_cons_of_mem _ hd))
    rw [List.cons_append, splitChars_cons_eq sep c _ cs _ h1,
      if_neg (hx c (List.mem_cons_self _ _))]

theorem joinListsSep_map (g : Char → Char) (sep : List Char) :
    ∀ ls : List (List Char),
      (joinListsSep sep ls).map g = joinListsSep (sep.map g) (ls.map (List.map g))
  | [] => rfl
  | [x] => rfl
  | x :: y :: rest => by
    simp only [joinListsSep, List.map_append, List.map_cons]
    rw [joinListsSep_map g sep (y :: rest)]
    rfl

theorem splitChars_join (sep : Char) :
    ∀ ls : List (List Char), (∀ x ∈ ls, ∀ c ∈ x, c ≠ sep) → ls ≠ [] →
      splitChars sep (joinListsSep [sep] ls) = ls
  | [], _, hne => absurd rfl hne
  | [x], h, _ => splitChars_no_sep sep x (h x (List.mem_singleton.mpr rfl))
  | x :: y :: rest, h, _ => by
    have hx : ∀ c ∈ x, c ≠ sep := h x (List.mem_cons_self _ _)
    have : joinListsSep [sep] (x :: y :: rest) =
        x ++ sep :: joinListsSep [sep] (y :: rest) := by
      simp [joinListsSep]
    rw [this, splitChars_sep_append sep x _ hx,
      splitChars_join sep (y :: rest)
        (fun z hz => h z (List.mem_cons_of_mem _ hz)) (by simp)]

/-- A token "clean" for round-tripping: nonempty, left fixed by the separator
normalisation, free of `';'` and of whitespace. -/
def goodTok (x : List Char) : Prop :=
  x ≠ [] ∧ ∀ c ∈ x, sepToSemi c = c ∧ c ≠ ';' ∧ isWs c = false

theorem digit_goodChar {c : Char} (h : c.isDigit = true) :
    sepToSemi c = c ∧ c ≠ ';' ∧ isWs c = false := by
  have h1 : c ≠ ',' := by rintro rfl; exact absurd h (by decide)
  have h2 : c ≠ '\n' := by rintro rfl; exact absurd h (by decide)
  have h3 : c ≠ '\t' := by rintro rfl; exact absurd h (by decide)
  have h4 : c ≠ ';' := by rintro rfl; exact absurd h (by decide)
  have h5 : isWs c = false := by
    cases hw : isWs c with
    | false => rfl
    | true =>
      exfalso
      have hw' : ((c = ' ' ∨ c = '\t') ∨ c = '\r') ∨ c = '\n' := by
        simpa [isWs, Char.isWhitespace] using hw
      rcases hw' with ((rfl | rfl) | rfl) | rfl <;> exact absurd h (by decide)
  exact ⟨by simp [sepToSemi, h1, h2, h3], h4, h5⟩

theorem validZnieff_goodTok {c : String} (h : validZnieffCode c = true) :
    goodTok c.data := by
  simp only [validZnieffCode, pyIsdigit, Bool.and_eq_true, Bool.not_eq_true'] at h
  obtain ⟨⟨hne, hdig⟩, _⟩ := h
  refine ⟨by simpa [List.isEmpty_iff] using hne, fun ch hch => ?_⟩
  exact digit_goodChar (by simpa using List.all_eq_true.mp hdig ch hch)

theorem validN2000_goodTok {c : String} (h : validN2000Code c = true) :
    goodTok c.data := by
  simp only [validN2000Code, Bool.and_eq_true, beq_iff_eq] at h
  obtain ⟨⟨hfr, _⟩, hdig⟩ := h
  cases hd : c.data with
  | nil => rw [hd] at hfr; simp at hfr
  | cons a rest =>
    cases rest with
    | nil => rw [hd] at hfr; simp at hfr
    | cons b rest2 =>
      rw [hd] at hfr
      simp only [List.take_succ_cons, List.take_zero, List.cons.injEq, and_true] at hfr
      obtain ⟨rfl, rfl, -⟩ := hfr
      have hrest : ∀ ch ∈ rest2, ch.isDigit = true := by
        simp only [pyIsdigit, Bool.and_eq_true] at hdig
        have h2 := hdig.2
        rw [hd] at h2
        simp only [List.drop_succ_cons, List.drop_zero] at h2
        intro ch hch
        simpa using List.all_eq_true.mp h2 ch hch
      refine ⟨by simp, fun ch hch => ?_⟩
      rcases List.mem_cons.mp hch with rfl | hch'
      · exact ⟨by decide, by decide, by decide⟩
      rcases List.mem_cons.mp hch' with rfl | hch''
      · exact ⟨by decide, by decide, by decide⟩
      · exact digit_goodChar (hrest ch hch'')

/-! ## Parser characterisation lemmas -/

theorem survivors_nodup (r : String) : (survivors r).Nodup := by
  have h := dedupByAux_keys_nodup id (fun t => decide (t ≠ "")) [] (tokensOf r)
  simpa [survivors, dedupBy] using h

theorem parse_znieff_ok_iff (r : String) (l : List String) :
    parse_codes_znieff (some r) = .ok l ↔
      l = survivors r ∧ ∀ c ∈ survivors r, validZnieffCode c = true := by
  simp only [parse_codes_znieff]
  cases hf : (survivors r).find? (fun c => !validZnieffCode c) with
  | some c =>
    constructor
    · intro h; exact absurd h (by simp)
    · rintro ⟨rfl, hall⟩
      have h1 := List.find?_some hf
      have h2 := List.mem_of_find?_eq_some hf
      rw [hall c h2] at h1
      simp at h1
  | none =>
    constructor
    · intro h
      have hl : survivors r = l := by
        simpa using h
      refine ⟨hl.symm, fun c hc => ?_⟩
      have := List.find?_eq_none.mp hf c hc
      simpa using this
    · rintro ⟨rfl, _⟩; rfl

theorem parse_n2000_ok_iff (r : String) (l : List String) :
    parse_codes_n2000 (some r) = .ok l ↔
      l = survivors r ∧ ∀ c ∈ survivors r, validN2000Code c = true := by
  simp only [parse_codes_n2000]
  cases hf : (survivors r).find? (fun c => !validN2000Code c) with
  | some c =>
    constructor
    · intro h; exact absurd h (by simp)
    · rintro ⟨rfl, hall⟩
      have h1 := List.find?_some hf
      have h2 := List.mem_of_find?_eq_some hf
      rw [hall c h2] at h1
      simp at h1
  | none =>
    constructor
    · intro h
      have hl : survivors r = l := by
        simpa using h
      refine ⟨hl.symm, fun c hc => ?_⟩
      have := List.find?_eq_none.mp hf c hc
      simpa using this
    · rintro ⟨rfl, _⟩; rfl

/-- Clean, deduplicated token lists round-trip through a `","` join. -/
theorem survivors_join (l : List String) (hnd : l.Nodup)
    (hgood : ∀ s ∈ l, goodTok s.data) :
    survivors (pyJoin "," l) = l := by
  cases l with
  | nil => rfl
  | cons s0 rest =>
    have htok : tokensOf (pyJoin "," (s0 :: rest)) = s0 :: rest := by
      have hfix : ∀ x ∈ (s0 :: rest).map String.data, x.map sepToSemi = x := by
        intro x hx
        obtain ⟨s, hs, rfl⟩ := List.mem_map.mp hx
        have hc := fun c hc => ((hgood s hs).2 c hc).1
        rw [List.map_congr_left hc]
        simp
      have hnosemi : ∀ x ∈ (s0 :: rest).map String.data, ∀ c ∈ x, c ≠ ';' := by
        intro x hx c hc
        obtain ⟨s, hs, rfl⟩ := List.mem_map.mp hx
        exact ((hgood s hs).2 c hc).2.1
      have h1 : (normSeps (pyJoin "," (s0 :: rest))).data =
          joinListsSep [';'] ((s0 :: rest).map String.data) := by
        show (joinListsSep [','] ((s0 :: rest).map String.data)).map sepToSemi = _
        rw [joinListsSep_map sepToSemi [','] ((s0 :: rest).map String.data),
          List.map_congr_left hfix,
          show List.map sepToSemi [','] = [';'] from rfl, List.map_id']
      have h2 : splitChars ';' (joinListsSep [';'] ((s0 :: rest).map String.data)) =
          (s0 :: rest).map String.data :=
        splitChars_join ';' _ hnosemi (by simp)
      have h3 : pysplit ';' (normSeps (pyJoin "," (s0 :: rest))) = s0 :: rest := by
        unfold pysplit
        rw [h1, h2, List.map_map]
        have hmk : ∀ s ∈ (s0 :: rest), (String.mk ∘ String.data) s = s :=
          fun s _ => rfl
        rw [List.map_congr_left hmk]
        simp
      show (pysplit ';' (normSeps (pyJoin "," (s0 :: rest)))).map pstrip = s0 :: rest
      rw [h3]
      have hps : ∀ s ∈ (s0 :: rest), pstrip s = s := by
        intro s hs
        show String.mk (trimChars s.data) = s
        rw [trimChars_eq_self s.data (fun c hc => ((hgood s hs).2 c hc).2.2)]
      rw [List.map_congr_left hps]
      simp
    show dedupBy id (fun t => t ≠ "") (tokensOf (pyJoin "," (s0 :: rest))) = s0 :: rest
    rw [htok]
    unfold dedupBy
    refine dedupByAux_eq_self _ (s0 :: rest) hnd ?_ [] (by simp)
    intro a ha
    have hne : a ≠ "" := by
      intro h0
      exact (hgood a ha).1 (by rw [h0])
    simpa using hne

/-- A pair kept in order by the first-seen deduplication sits in first-occurrence
order in the kept (filtered) token stream. -/
theorem dedupById_pair_order [DecidableEq α] (keep : α → Bool) (l : List α) (a b : α) :
    ∀ seen : List α, ([a, b]).Sublist (dedupByAux id keep seen l) →
      (l.filter keep).indexOf a < (l.filter keep).indexOf b := by
  induction l with
  | nil => intro seen hab; simp [dedupByAux] at hab
  | cons x xs ih =>
    intro seen hab
    by_cases hcond : keep x = true ∧ (id x) ∉ seen
    · rw [dedupByAux, if_pos hcond] at hab
      rw [List.filter_cons, if_pos hcond.1]
      cases hab with
      | cons _ h' =>
        have ha := (mem_dedupByAux_imp id keep _ _ a (h'.subset (List.mem_cons_self _ _))).2.2
        have hb := (mem_dedupByAux_imp id keep _ _ b
          (h'.subset (List.mem_cons_of_mem _ (List.mem_cons_self _ _)))).2.2
        have hax : a ≠ x := fun h => ha (h ▸ List.mem_cons_self _ _)
        have hbx : b ≠ x := fun h => hb (h ▸ List.mem_cons_self _ _)
        rw [List.indexOf_cons_ne _ (fun h => hax h.symm),
          List.indexOf_cons_ne _ (fun h => hbx h.symm)]
        exact Nat.succ_lt_succ (ih (x :: seen) h')
      | cons₂ _ h' =>
        have hb := (mem_dedupByAux_imp id keep _ _ b (List.singleton_sublist.mp h')).2.2
        have hba : b ≠ a := fun h => hb (h ▸ List.mem_cons_self _ _)
        rw [List.indexOf_cons_self, List.indexOf_cons_ne _ (fun h => hba h.symm)]
        exact Nat.succ_pos _
    · rw [dedupByAux, if_neg hcond] at hab
      have ha := (mem_dedupByAux_imp id keep _ _ a (hab.subset (List.mem_cons_self _ _))).2.2
      have hb := (mem_dedupByAux_imp id keep _ _ b
        (hab.subset (List.mem_cons_of_mem _ (List.mem_cons_self _ _)))).2.2
      by_cases hkx : keep x = true
      · have hxs : x ∈ seen := by
          by_contra hxs
          exact hcond ⟨hkx, hxs⟩
        have hax : a ≠ x := fun h => ha (h ▸ hxs)
        have hbx : b ≠ x := fun h => hb (h ▸ hxs)
        rw [List.filter_cons, if_pos hkx,
          List.indexOf_cons_ne _ (fun h => hax h.symm),
          List.indexOf_cons_ne _ (fun h => hbx h.symm)]
        exact Nat.succ_lt_succ (ih seen hab)
      · rw [List.filter_cons, if_neg (by simpa using hkx)]
        exact ih seen hab

/-! ## Claims C3, C4, C5: the code parsers -/

/-- C3: parsing is idempotent.  If either parser returns `l`, then re-parsing
the `","`-join of `l` returns `l` again. -/
theorem parse_codes_idempotent (raw : Option String) (l : List String) :
    (parse_codes_znieff raw = .ok l →
      parse_codes_znieff (some (pyJoin "," l)) = .ok l) ∧
    (parse_codes_n2000 raw = .ok l →
      parse_codes_n2000 (some (pyJoin "," l)) = .ok l) := by
  constructor
  · intro h
    have hprops : l.Nodup ∧ ∀ c ∈ l, validZnieffCode c = true := by
      cases raw with
      | none =>
        simp only [parse_codes_znieff] at h
        injection h with h2
        subst h2
        exact ⟨List.nodup_nil, by simp⟩
      | some r =>
        rw [parse_znieff_ok_iff] at h
        obtain ⟨rfl, hall⟩ := h
        exact ⟨survivors_nodup r, hall⟩
    have hs : survivors (pyJoin "," l) = l :=
      survivors_join l hprops.1 (fun s hs => validZnieff_goodTok (hprops.2 s hs))
    rw [parse_znieff_ok_iff]
    exact ⟨hs.symm, fun c hc => hprops.2 c (hs ▸ hc)⟩
  · intro h
    have hprops : l.Nodup ∧ ∀ c ∈ l, validN2000Code c = true := by
      cases raw with
      | none =>
        simp only [parse_codes_n2000] at h
        injection h with h2
        subst h2
        exact ⟨List.nodup_nil, by simp⟩
      | some r =>
        rw [parse_n2000_ok_iff] at h
        obtain ⟨rfl, hall⟩ := h
        exact ⟨survivors_nodup r, hall⟩
    have hs : survivors (pyJoin "," l) = l :=
      survivors_join l hprops.1 (fun s hs => validN2000_goodTok (hprops.2 s hs))
    rw [parse_n2000_ok_iff]
    exact ⟨hs.symm, fun c hc => hprops.2 c (hs ▸ hc)⟩

/-- Witness for C3 at concrete inputs. -/
theorem parse_codes_idempotent_witness :
    parse_codes_znieff (some (pyJoin "," ["930020000", "123456789"])) =
      .ok ["930020000", "123456789"] ∧
    parse_codes_n2000 (some (pyJoin "," ["FR1234567"])) = .ok ["FR1234567"] :=
  ⟨(parse_codes_idempotent (some "930020000, 123456789") _).1 rfl,
   (parse_codes_idempotent (some "FR1234567") _).2 rfl⟩

/-- C4: a successful parse is duplicate-free and lists codes in first-occurrence
order of the trimmed nonempty tokens: the result is a sublist of the nonempty
token stream containing every nonempty token, and any two result entries in
result order have strictly increasing first-occurrence indices. -/
theorem parse_codes_order (raw : String) (l : List String)
    (h : parse_codes_znieff (some raw) = .ok l ∨ parse_codes_n2000 (some raw) = .ok l) :
    l.Nodup ∧
    l.Sublist ((tokensOf raw).filter (fun t => t ≠ "")) ∧
    (∀ t ∈ tokensOf raw, t ≠ "" → t ∈ l) ∧
    (∀ a b, ([a, b]).Sublist l →
      ((tokensOf raw).filter (fun t => t ≠ "")).indexOf a <
        ((tokensOf raw).filter (fun t => t ≠ "")).indexOf b) := by
  have hl : l = survivors raw := by
    rcases h with h | h
    · exact (parse_znieff_ok_iff raw l |>.mp h).1
    · exact (parse_n2000_ok_iff raw l |>.mp h).1
  subst hl
  refine ⟨survivors_nodup raw, ?_, ?_, ?_⟩
  · have hsub : (survivors raw).Sublist (tokensOf raw) :=
      dedupByAux_sublist id (fun t => decide (t ≠ "")) [] (tokensOf raw)
    have hall : ∀ t ∈ survivors raw, decide (t ≠ "") = true := by
      intro t ht
      exact (mem_dedupByAux_imp id _ [] _ t ht).2.1
    have heq : (survivors raw).filter (fun t => decide (t ≠ "")) = survivors raw :=
      List.filter_eq_self.mpr hall
    have hfil := hsub.filter (fun t => decide (t ≠ ""))
    rw [heq] at hfil
    exact hfil
  · intro t ht hne
    show t ∈ dedupByAux id (fun t => decide (t ≠ "")) [] (tokensOf raw)
    exact (mem_dedupById _ [] (tokensOf raw) t).mpr ⟨ht, by simpa using hne, by simp⟩
  · intro a b hab
    exact dedupById_pair_order (fun t => decide (t ≠ "")) (tokensOf raw) a b [] hab

/-- Witness for C4 at a concrete input with a duplicate. -/
theorem parse_codes_order_witness :
    (["123456789", "987654321"] : List String).Nodup ∧
    ((tokensOf "123456789;987654321;123456789").filter (fun t => t ≠ "")).indexOf
        "123456789" <
      ((tokensOf "123456789;987654321;123456789").filter (fun t => t ≠ "")).indexOf
        "987654321" := by
  have h := parse_codes_order "123456789;987654321;123456789"
    ["123456789", "987654321"] (Or.inl rfl)
  exact ⟨h.1, h.2.2.2 "123456789" "987654321" (List.Sublist.refl _)⟩

/-- C5: each parser fails exactly when some surviving token violates its format
rule, the raised error names a surviving offending token, and a null or empty
input yields the empty list without error.  (Failure carries no partial result:
the `Except` value is either one error or the whole list.) -/
theorem parse_codes_error_characterisation (raw : String) :
    ((∃ e, parse_codes_znieff (some raw) = .error e) ↔
      ∃ c ∈ survivors raw, validZnieffCode c = false) ∧
    (∀ c, parse_codes_znieff (some raw) = .error (.invalidZnieff c) →
      c ∈ survivors raw ∧ validZnieffCode c = false) ∧
    ((∃ e, parse_codes_n2000 (some raw) = .error e) ↔
      ∃ c ∈ survivors raw, validN2000Code c = false) ∧
    (∀ c, parse_codes_n2000 (some raw) = .error (.invalidN2000 c) →
      c ∈ survivors raw ∧ validN2000Code c = false) ∧
    parse_codes_znieff none = .ok [] ∧ parse_codes_n2000 none = .ok [] ∧
    parse_codes_znieff (some "") = .ok [] ∧ parse_codes_n2000 (some "") = .ok [] := by
  refine ⟨?_, ?_, ?_, ?_, rfl, rfl, rfl, rfl⟩
  · simp only [parse_codes_znieff]
    cases hf : (survivors raw).find? (fun c => !validZnieffCode c) with
    | some c =>
      constructor
      · intro _
        exact ⟨c, List.mem_of_find?_eq_some hf, by simpa using List.find?_some hf⟩
      · intro _
        exact ⟨.invalidZnieff c, rfl⟩
    | none =>
      constructor
      · rintro ⟨e, he⟩
        exact absurd he (by simp)
      · rintro ⟨c, hc, hv⟩
        have := List.find?_eq_none.mp hf c hc
        rw [hv] at this
        simp at this
  · intro c h
    simp only [parse_codes_znieff] at h
    cases hf : (survivors raw).find? (fun c => !validZnieffCode c) with
    | some c' =>
      rw [hf] at h
      have hcc : c' = c := by
        injection h with h2
        injection h2
      subst hcc
      exact ⟨List.mem_of_find?_eq_some hf, by simpa using List.find?_some hf⟩
    | none =>
      rw [hf] at h
      exact absurd h (by simp)
  · simp only [parse_codes_n2000]
    cases hf : (survivors raw).find? (fun c => !validN2000Code c) with
    | some c =>
      constructor
      · intro _
        exact ⟨c, List.mem_of_find?_eq_some hf, by simpa using List.find?_some hf⟩
      · intro _
        exact ⟨.invalidN2000 c, rfl⟩
    | none =>
      constructor
      · rintro ⟨e, he⟩
        exact absurd he (by simp)
      · rintro ⟨c, hc, hv⟩
        have := List.find?_eq_none.mp hf c hc
        rw [hv] at this
        simp at this
  · intro c h
    simp only [parse_codes_n2000] at h
    cases hf : (survivors raw).find? (fun c => !validN2000Code c) with
    | some c' =>
      rw [hf] at h
      have hcc : c' = c := by
        injection h with h2
        injection h2
      subst hcc
      exact ⟨List.mem_of_find?_eq_some hf, by simpa using List.find?_some hf⟩
    | none =>
      rw [hf] at h
      exact absurd h (by simp)

/-- Witness for C5: `"12345"` rejected / `"123456789"` accepted (ZNIEFF),
`"FR123456"` rejected / `"FR1234567"` accepted (N2000). -/
theorem parse_codes_error_witness :
    parse_codes_znieff (some "12345") = .error (.invalidZnieff "12345") ∧
    ("12345" ∈ survivors "12345" ∧ validZnieffCode "12345" = false) ∧
    parse_codes_znieff (some "123456789") = .ok ["123456789"] ∧
    parse_codes_n2000 (some "FR123456") = .error (.invalidN2000 "FR123456") ∧
    ("FR123456" ∈ survivors "FR123456" ∧ validN2000Code "FR123456" = false) ∧
    parse_codes_n2000 (some "FR1234567") = .ok ["FR1234567"] :=
  ⟨rfl, (parse_codes_error_characterisation "12345").2.1 "12345" rfl, rfl, rfl,
   (parse_codes_error_characterisation "FR123456").2.2.2.1 "FR123456" rfl, rfl⟩

/-! ## Claim C9: `write_excel_output` -/

/-- C9: with all four tables empty, `write_excel_output` raises the
empty-result error before performing any side effect (an `.error` result
carries no `WriteStep`, matching the source where the `raise` precedes
`mkdir` and the spreadsheet write); with at least one non-empty table it
performs the directory creation and the workbook write and raises nothing. -/
theorem write_excel_output_empty_check (hz : List HabOutRow) (ez : List EspZnOutRow)
    (hn : Option (List N2HabOutRow)) (en : Option (List N2EspOutRow)) :
    (hz = [] ∧ ez = [] ∧ hn.getD [] = [] ∧ en.getD [] = [] →
      write_excel_output hz ez hn en = .error .emptyResultSet) ∧
    (¬(hz = [] ∧ ez = [] ∧ hn.getD [] = [] ∧ en.getD [] = []) →
      write_excel_output hz ez hn en = .ok [.createOutputDir, .writeWorkbook]) := by
  constructor
  · rintro ⟨h1, h2, h3, h4⟩
    simp [write_excel_output, h1, h2, h3, h4]
  · intro h
    have hcond : ¬((hz.isEmpty && ez.isEmpty && (hn.getD []).isEmpty &&
        (en.getD []).isEmpty) = true) := by
      simp only [Bool.and_eq_true, List.isEmpty_iff]
      rintro ⟨⟨⟨h1, h2⟩, h3⟩, h4⟩
      exact h ⟨h1, h2, h3, h4⟩
    simp only [write_excel_output]
    rw [if_neg hcond]

/-- Witness for C9: the all-empty call errors, one non-empty table writes. -/
theorem write_excel_output_empty_check_witness :
    write_excel_output [] [] none none = .error .emptyResultSet ∧
    write_excel_output
        [⟨"930020000", "", "", "", "", "", "", "", "", "", "", "", ""⟩] [] none none =
      .ok [.createOutputDir, .writeWorkbook] :=
  ⟨(write_excel_output_empty_check [] [] none none).1 ⟨rfl, rfl, rfl, rfl⟩,
   (write_excel_output_empty_check _ [] none none).2 (by simp)⟩

/-! ## Claim C6: empty-schema short-circuits -/

/-- Counterexample to C6 as stated: with the habitat dataset file absent, a
non-empty code list (which therefore matches no rows) makes
`export_habitats_znieff` raise `sourceNotFound` instead of returning the
empty schema-complete table — `ensure_exists` runs before any filtering. -/
theorem export_no_match_counterexample :
    export_habitats_znieff ⟨none, none, none, none, none, none, none, none, none, none⟩
      ["123456789"] = .error (.sourceNotFound "ZNIEFF_Habitats.parquet") := rfl

/-- C6 (amended): with an all-blank (in particular empty) code list every
exporter returns the empty schema-complete table without touching any file,
whatever the paths; and when the primary dataset file exists but the code
list matches none of its rows, the exporter also returns the empty
schema-complete table without error. -/
theorem export_empty_result_schema (paths : LocalINPNPaths) (codes : List String) :
    (allBlank codes = true →
      export_habitats_znieff paths codes = .ok [] ∧
      export_especes_znieff paths codes = .ok [] ∧
      export_habitats_n2000 paths codes = .ok [] ∧
      export_especes_n2000 paths codes = .ok []) ∧
    (∀ rows, paths.znieff_habitats = some rows →
      filterParquet HabRowRaw.nm_sffzn codes rows = [] →
      export_habitats_znieff paths codes = .ok []) ∧
    (∀ rows, paths.znieff_espece = some rows →
      filterParquet EspRowRaw.nm_sffzn codes rows = [] →
      export_especes_znieff paths codes = .ok []) ∧
    (∀ rows, paths.n2000_habitats = some rows →
      (rows.map (fun r => N2HabMidRow.mk (pyUpper (pstrip (cellStr r.sitecode))) r.cd_ue
          (pstrip (cellStr r.cd_hab)) r.pf)).filter (fun r => r.site ∈ n2CodeSet codes) = [] →
      export_habitats_n2000 paths codes = .ok []) ∧
    (∀ ri ra, paths.n2000_especes_inscrites = some ri →
      paths.n2000_especes_autres = some ra →
      (n2EspNorm "Espèce inscrite" ri ++ n2EspNorm "Espèce autre" ra).filter
        (fun r => r.site ∈ n2CodeSet codes) = [] →
      export_especes_n2000 paths codes = .ok []) := by
  refine ⟨?_, ?_, ?_, ?_, ?_⟩
  · intro hq
    refine ⟨?_, ?_, ?_, ?_⟩
    · simp [Except.map, Except.bind, Except.pure, bind, pure, export_habitats_znieff, hq]
    · simp [Except.map, Except.bind, Except.pure, bind, pure, export_especes_znieff, especesZnieffRows, hq, insSort]
    · simp [Except.map, Except.bind, Except.pure, bind, pure, export_habitats_n2000, hq]
    · simp [Except.map, Except.bind, Except.pure, bind, pure, export_especes_n2000, hq]
  · intro rows hrows hfil
    by_cases hq : allBlank codes = true
    · simp [Except.map, Except.bind, Except.pure, bind, pure, export_habitats_znieff, hq]
    · simp [Except.map, Except.bind, Except.pure, bind, pure, export_habitats_znieff, hq, hrows, ensureRead, hfil]
  · intro rows hrows hfil
    by_cases hq : allBlank codes = true
    · simp [Except.map, Except.bind, Except.pure, bind, pure, export_especes_znieff, especesZnieffRows, hq, insSort]
    · simp [Except.map, Except.bind, Except.pure, bind, pure, export_especes_znieff, especesZnieffRows, hq, hrows, ensureRead, hfil, insSort]
  · intro rows hrows hfil
    by_cases hq : allBlank codes = true
    · simp [Except.map, Except.bind, Except.pure, bind, pure, export_habitats_n2000, hq]
    · simp [Except.map, Except.bind, Except.pure, bind, pure, export_habitats_n2000, hq, hrows, ensureRead, hfil]
  · intro ri ra hri hra hfil
    by_cases hq : allBlank codes = true
    · simp [Except.map, Except.bind, Except.pure, bind, pure, export_especes_n2000, hq]
    · simp [Except.map, Except.bind, Except.pure, bind, pure, export_especes_n2000, hq, hri, hra, ensureRead, hfil]

/-- Witness for C6 (amended) at concrete inputs: blank code list with absent
files, and a present-but-unmatched dataset. -/
theorem export_empty_result_schema_witness :
    export_habitats_znieff ⟨none, none, none, none, none, none, none, none, none, none⟩
      [] = .ok [] ∧
    export_habitats_znieff
      ⟨none, some [⟨some "930020000", none, none, none, none, none, some "T1"⟩],
        none, none, none, none, none, none, none, none⟩ ["111111111"] = .ok [] :=
  ⟨((export_empty_result_schema _ []).1 rfl).1,
   (export_empty_result_schema _ ["111111111"]).2.1 _ rfl rfl⟩

/-! ## Claim C7: missing reference tables -/

/-- Counterexample to C7 as stated: the ZNIEFF habitat typology-info
(family-flag) table is consulted but its absence is NOT a hard failure — with
`znieff_habitats_info` absent and every other consulted table present, the
export succeeds, with an empty `Type habitat`. -/
theorem typo_info_soft_skip_counterexample :
    export_habitats_znieff
      ⟨none,
        some [⟨some "930020000", some "007", some "T", some "CH", some "E1",
          some "L1", some "T1"⟩],
        none, some [], none, none, none, none, none, none⟩
      ["930020000"] =
      .ok [⟨"930020000", "", "", "", "CH", "007", "T", "E1", "L1", "", "", "", ""⟩] := rfl

/-- C7 (amended): for every exporter called with a non-blank code list, the
absence of any required reference table's file causes `sourceNotFound` naming
the missing path — for every table the exporter consults EXCEPT the ZNIEFF
habitat typology-info (family-flag) table, whose absence is tolerated (the
family-flag lookup is then empty and `Type habitat` is left blank). -/
theorem export_source_not_found (paths : LocalINPNPaths) (codes : List String)
    (hq : allBlank codes = false) :
    (paths.znieff_habitats = none →
      export_habitats_znieff paths codes =
        .error (.sourceNotFound "ZNIEFF_Habitats.parquet")) ∧
    (∀ rows, paths.znieff_habitats = some rows →
      filterParquet HabRowRaw.nm_sffzn codes rows ≠ [] →
      paths.znieff_infos_generales = none →
      export_habitats_znieff paths codes =
        .error (.sourceNotFound "ZNIEFF_Infos_generales.parquet")) ∧
    (paths.znieff_espece = none →
      export_especes_znieff paths codes =
        .error (.sourceNotFound "ZNIEFF_Especes.parquet")) ∧
    (∀ rows, paths.znieff_espece = some rows →
      filterParquet EspRowRaw.nm_sffzn codes rows ≠ [] →
      paths.taxref = none →
      export_especes_znieff paths codes =
        .error (.sourceNotFound "TAXREFv18.parquet")) ∧
    (∀ rows tax, paths.znieff_espece = some rows →
      filterParquet EspRowRaw.nm_sffzn codes rows ≠ [] →
      paths.taxref = some tax →
      paths.znieff_infos_generales = none →
      export_especes_znieff paths codes =
        .error (.sourceNotFound "ZNIEFF_Infos_generales.parquet")) ∧
    (paths.n2000_habitats = none →
      export_habitats_n2000 paths codes =
        .error (.sourceNotFound "N2000_Habitats.parquet")) ∧
    (∀ rows, paths.n2000_habitats = some rows →
      (rows.map (fun r => N2HabMidRow.mk (pyUpper (pstrip (cellStr r.sitecode))) r.cd_ue
          (pstrip (cellStr r.cd_hab)) r.pf)).filter
        (fun r => r.site ∈ n2CodeSet codes) ≠ [] →
      paths.habref_70 = none →
      export_habitats_n2000 paths codes =
        .error (.sourceNotFound "HABREF_70.parquet")) ∧
    (∀ rows habref, paths.n2000_habitats = some rows →
      (rows.map (fun r => N2HabMidRow.mk (pyUpper (pstrip (cellStr r.sitecode))) r.cd_ue
          (pstrip (cellStr r.cd_hab)) r.pf)).filter
        (fun r => r.site ∈ n2CodeSet codes) ≠ [] →
      paths.habref_70 = some habref →
      paths.n2000_infos_generales = none →
      export_habitats_n2000 paths codes =
        .error (.sourceNotFound "N2000_Infos_generales.parquet")) ∧
    (paths.n2000_especes_inscrites = none →
      export_especes_n2000 paths codes =
        .error (.sourceNotFound "N2000_Especes_inscrites.parquet")) ∧
    (∀ ri, paths.n2000_especes_inscrites = some ri →
      paths.n2000_especes_autres = none →
      export_especes_n2000 paths codes =
        .error (.sourceNotFound "N2000_Especes_autres.parquet")) ∧
    (∀ ri ra, paths.n2000_especes_inscrites = some ri →
      paths.n2000_especes_autres = some ra →
      (n2EspNorm "Espèce inscrite" ri ++ n2EspNorm "Espèce autre" ra).filter
        (fun r => r.site ∈ n2CodeSet codes) ≠ [] →
      paths.taxref = none →
      export_especes_n2000 paths codes =
        .error (.sourceNotFound "TAXREFv18.parquet")) ∧
    (∀ ri ra tax, paths.n2000_especes_inscrites = some ri →
      paths.n2000_especes_autres = some ra →
      (n2EspNorm "Espèce inscrite" ri ++ n2EspNorm "Espèce autre" ra).filter
        (fun r => r.site ∈ n2CodeSet codes) ≠ [] →
      paths.taxref = some tax →
      paths.n2000_infos_generales = none →
      export_especes_n2000 paths codes =
        .error (.sourceNotFound "N2000_Infos_generales.parquet")) := by
  refine ⟨?_, ?_, ?_, ?_, ?_, ?_, ?_, ?_, ?_, ?_, ?_, ?_⟩
  · intro h
    simp [Except.map, Except.bind, Except.pure, bind, pure, export_habitats_znieff,
      hq, h, ensureRead]
  · intro rows hrows hfil hinfo
    simp [Except.map, Except.bind, Except.pure, bind, pure, export_habitats_znieff,
      hq, hrows, hfil, hinfo, ensureRead, load_znieff_info]
  · intro h
    simp [Except.map, Except.bind, Except.pure, bind, pure, export_especes_znieff,
      especesZnieffRows, hq, h, ensureRead]
  · intro rows hrows hfil htax
    simp [Except.map, Except.bind, Except.pure, bind, pure, export_especes_znieff,
      especesZnieffRows, hq, hrows, hfil, htax, ensureRead]
  · intro rows tax hrows hfil htax hinfo
    simp [Except.map, Except.bind, Except.pure, bind, pure, export_especes_znieff,
      especesZnieffRows, hq, hrows, hfil, htax, hinfo, ensureRead, load_znieff_info]
  · intro h
    simp [Except.map, Except.bind, Except.pure, bind, pure, export_habitats_n2000,
      hq, h, ensureRead]
  · intro rows hrows hfil fhab
    simp [Except.map, Except.bind, Except.pure, bind, pure, export_habitats_n2000,
      hq, hrows, hfil, fhab, ensureRead]
  · intro rows habref hrows hfil fhab hinfo
    simp [Except.map, Except.bind, Except.pure, bind, pure, export_habitats_n2000,
      hq, hrows, hfil, fhab, hinfo, ensureRead, load_n2000_info]
  · intro h
    simp [Except.map, Except.bind, Except.pure, bind, pure, export_especes_n2000,
      hq, h, ensureRead]
  · intro ri hri hra
    simp [Except.map, Except.bind, Except.pure, bind, pure, export_especes_n2000,
      hq, hri, hra, ensureRead]
  · intro ri ra hri hra hfil htax
    simp [Except.map, Except.bind, Except.pure, bind, pure, export_especes_n2000,
      hq, hri, hra, htax, ensureRead]
    intro hall
    have hex : ∃ x ∈ n2EspNorm "Espèce inscrite" ri ++ n2EspNorm "Espèce autre" ra,
        x.site ∈ n2CodeSet codes := by
      by_contra hno
      push_neg at hno
      exact hfil (List.filter_eq_nil_iff.mpr (fun x hx => by simpa using hno x hx))
    obtain ⟨x, hx, hpx⟩ := hex
    rcases List.mem_append.mp hx with h1 | h2
    · exact absurd hpx (hall x h1)
    · exact ⟨x, h2, hpx⟩
  · intro ri ra tax hri hra hfil htax hinfo
    simp [Except.map, Except.bind, Except.pure, bind, pure, export_especes_n2000,
      hq, hri, hra, htax, hinfo, ensureRead, load_n2000_info]
    intro hall
    have hex : ∃ x ∈ n2EspNorm "Espèce inscrite" ri ++ n2EspNorm "Espèce autre" ra,
        x.site ∈ n2CodeSet codes := by
      by_contra hno
      push_neg at hno
      exact hfil (List.filter_eq_nil_iff.mpr (fun x hx => by simpa using hno x hx))
    obtain ⟨x, hx, hpx⟩ := hex
    rcases List.mem_append.mp hx with h1 | h2
    · exact absurd hpx (hall x h1)
    · exact ⟨x, h2, hpx⟩

/-- Witness for C7 (amended): a missing zone-info table and a missing TAXREF
table each abort with `sourceNotFound` at concrete inputs. -/
theorem export_source_not_found_witness :
    export_habitats_znieff
      ⟨none,
        some [⟨some "930020000", some "007", some "T", some "CH", some "E1",
          some "L1", some "T1"⟩],
        none, none, none, none, none, none, none, none⟩ ["930020000"] =
      .error (.sourceNotFound "ZNIEFF_Infos_generales.parquet") ∧
    export_especes_znieff
      ⟨some [⟨some "930020000", some "1", some "2", some "D", some "Oiseaux"⟩],
        none, none, none, none, none, none, none, none, none⟩ ["930020000"] =
      .error (.sourceNotFound "TAXREFv18.parquet") :=
  ⟨(export_source_not_found _ ["930020000"] rfl).2.1 _ rfl (by decide) rfl,
   (export_source_not_found _ ["930020000"] rfl).2.2.2.1 _ rfl (by decide) rfl⟩

/-! ## The habitat aggregation in map form (claims C1, C2) -/

theorem groupKeysOf_nodup (l : List HabRow) : (groupKeysOf l).Nodup := by
  have h := dedupByAux_keys_nodup id (fun _ => true) [] (l.map habKey)
  simpa [groupKeysOf, dedupBy] using h

theorem famTable_keys (fam : String) (rows : List HabRow) :
    (famTable fam rows).map Prod.fst =
      groupKeysOf (rows.filter (fun r => r.cdTypoNorm = fam)) := by
  simp only [famTable, List.map_map]
  exact (List.map_congr_left (fun k _ => rfl)).trans (List.map_id' _)

theorem mainAgg_keys (rows : List HabRow) :
    (mainAgg rows).map HabAggRow.key = groupKeysOf rows := by
  simp only [mainAgg, List.map_map]
  exact (List.map_congr_left (fun k _ => rfl)).trans (List.map_id' _)

/-- `first_valid` is the first-match characterisation the spec describes. -/
theorem first_valid_eq_find? (vs : List String) :
    first_valid vs = (vs.find? (fun v => v ≠ "" ∧ v ≠ "nan")).getD "" := by
  induction vs with
  | nil => rfl
  | cons v vs ih =>
    by_cases h : v ≠ "" ∧ v ≠ "nan"
    · rw [first_valid, if_pos h, List.find?_cons_of_pos _ (by simpa using h)]
      rfl
    · rw [first_valid, if_neg h, List.find?_cons_of_neg _ (by simpa using h), ih]

/-- The whole aggregation, rewritten as one map over the main `groupby`
result: legitimate because every merge is against a unique-key right table. -/
theorem aggregateHabitatsZnieff_eq_map (df0 : List HabRowRaw)
    (fgT : Option (List TypoInfoRowRaw)) (zinfo : List ZnInfoRow)
    (hz : (zinfo.map ZnInfoRow.idZnieff).Nodup) :
    aggregateHabitatsZnieff df0 fgT zinfo =
      (mainAgg (df0.map normHabRow)).map
        (habGroupRow (df0.map normHabRow) fgT zinfo) := by
  simp only [aggregateHabitatsZnieff]
  have heu : ∀ k, ((famTable "7" (df0.map normHabRow)).filter
      (fun b => b.1 = k)).length ≤ 1 := by
    intro k
    refine filter_key_length_le_one Prod.fst _ ?_ k
    rw [famTable_keys]
    exact groupKeysOf_nodup _
  have hco : ∀ k, ((famTable "22" (df0.map normHabRow)).filter
      (fun b => b.1 = k)).length ≤ 1 := by
    intro k
    refine filter_key_length_le_one Prod.fst _ ?_ k
    rw [famTable_keys]
    exact groupKeysOf_nodup _
  have hhi : ∀ k, ((famTable "8" (df0.map normHabRow)).filter
      (fun b => b.1 = k)).length ≤ 1 := by
    intro k
    refine filter_key_length_le_one Prod.fst _ ?_ k
    rw [famTable_keys]
    exact groupKeysOf_nodup _
  have hzi : ∀ k, (zinfo.filter (fun b => b.idZnieff = k)).length ≤ 1 :=
    fun k => filter_key_length_le_one ZnInfoRow.idZnieff _ hz k
  rw [mergeLeft_eq_map _ _ _ _ _ heu, mergeLeft_eq_map _ _ _ _ _ hco,
    mergeLeft_eq_map _ _ _ _ _ hhi, mergeLeft_eq_map _ _ _ _ _ hzi]
  simp only [List.map_map]
  rfl

/-- The zone-info table produced by `load_znieff_info` always has unique keys. -/
theorem load_znieff_keys_nodup (zin : List ZnInfoRowRaw) :
    ((dedupBy ZnInfoRow.idZnieff (fun _ => true)
      (zin.map (fun r => ZnInfoRow.mk (pstrip (cellStr r.nm_sffzn)) r.lb_zn
        r.ty_zone))).map ZnInfoRow.idZnieff).Nodup :=
  dedupByAux_keys_nodup ZnInfoRow.idZnieff _ [] _

/-- C2: in every (zone, typology-info) group of the ZNIEFF habitat export, the
aggregated `CD_HAB` is the first value in original row order that is non-empty
and not the string `"nan"` (`find?` of the group's value list, `""` when no
such value exists) — a first-match rule, not a lexicographic minimum. -/
theorem habitat_cdHab_first_valid
    (pe : Option (List EspRowRaw)) (habT : List HabRowRaw)
    (fgT : Option (List TypoInfoRowRaw)) (zin : List ZnInfoRowRaw)
    (ptax : Option (List TaxRowRaw)) (p6 : Option (List N2HabRowRaw))
    (p7 p8 : Option (List N2EspRowRaw)) (p9 : Option (List N2InfoRowRaw))
    (p10 : Option (List HabrefRowRaw))
    (codes : List String) (hq : allBlank codes = false)
    (out : List HabOutRow)
    (h : export_habitats_znieff
      ⟨pe, some habT, fgT, some zin, ptax, p6, p7, p8, p9, p10⟩ codes = .ok out)
    (i : Nat) (hi : i < out.length) :
    out.length =
      (groupKeysOf ((filterParquet HabRowRaw.nm_sffzn codes habT).map normHabRow)).length ∧
    ∀ hk : i <
      (groupKeysOf ((filterParquet HabRowRaw.nm_sffzn codes habT).map normHabRow)).length,
      (out.get ⟨i, hi⟩).cdHab =
        (((groupRowsOf ((filterParquet HabRowRaw.nm_sffzn codes habT).map normHabRow)
            ((groupKeysOf ((filterParquet HabRowRaw.nm_sffzn codes habT).map
              normHabRow)).get ⟨i, hk⟩)).map HabRow.cdHab).find?
          (fun v => v ≠ "" ∧ v ≠ "nan")).getD "" := by
  simp only [export_habitats_znieff, hq, Bool.false_eq_true, if_false,
    Except.bind, Except.pure, bind, pure, ensureRead, load_znieff_info,
    Except.map] at h
  cases hemp : (filterParquet HabRowRaw.nm_sffzn codes habT).isEmpty with
  | true =>
    rw [hemp] at h
    simp only [if_true] at h
    injection h with h2
    subst h2
    exact absurd hi (by simp)
  | false =>
    rw [hemp] at h
    simp only [Bool.false_eq_true, if_false] at h
    injection h with h2
    rw [aggregateHabitatsZnieff_eq_map _ _ _ (load_znieff_keys_nodup zin)] at h2
    subst h2
    constructor
    · simp [mainAgg]
    · intro hk
      simp only [List.get_eq_getElem, List.getElem_map, mainAgg, habGroupRow,
        first_valid_eq_find?]

/-- Witness for C2: a group whose row-order values are `["b2", "a1"]` keeps
`"b2"` (the first valid value), not the lexicographic minimum `"a1"`. -/
theorem habitat_cdHab_first_valid_witness :
    (([⟨"930020000", "", "", "", "b2", "007;08", "", "", "", "", "", "", ""⟩] :
        List HabOutRow).get ⟨0, by decide⟩).cdHab =
      (((groupRowsOf ((filterParquet HabRowRaw.nm_sffzn ["930020000"]
          [⟨some "930020000", some "007", none, some "b2", none, none, some "T1"⟩,
           ⟨some "930020000", some "08", none, some "a1", none, none, some "T1"⟩]).map
            normHabRow)
          ((groupKeysOf ((filterParquet HabRowRaw.nm_sffzn ["930020000"]
            [⟨some "930020000", some "007", none, some "b2", none, none, some "T1"⟩,
             ⟨some "930020000", some "08", none, some "a1", none, none, some "T1"⟩]).map
              normHabRow)).get ⟨0, by decide⟩)).map HabRow.cdHab).find?
        (fun v => v ≠ "" ∧ v ≠ "nan")).getD "" ∧
    (([⟨"930020000", "", "", "", "b2", "007;08", "", "", "", "", "", "", ""⟩] :
        List HabOutRow).get ⟨0, by decide⟩).cdHab = "b2" :=
  ⟨(habitat_cdHab_first_valid none
      [⟨some "930020000", some "007", none, some "b2", none, none, some "T1"⟩,
       ⟨some "930020000", some "08", none, some "a1", none, none, some "T1"⟩]
      none [] none none none none none none ["930020000"] rfl
      [⟨"930020000", "", "", "", "b2", "007;08", "", "", "", "", "", "", ""⟩]
      rfl 0 (by decide)).2 (by decide), rfl⟩

/-- C1: a filtered input of exactly two rows sharing one
(zone, typology-info) group, one classified EUNIS (code `"007"`, entries
`("E1", "Lib1")`) and one classified HIC (code `"08"`, entries
`("H1", "LibH")`), aggregates to a single row with `Code EUNIS = "E1"`,
`Libellé EUNIS = "Lib1"`, `Code HIC = "H1"`, `Libellé HIC = "LibH"` and
`Code typologie = "007;08"` (distinct raw codes sorted and `";"`-joined,
while the family split uses the zero-stripped codes `"7"` and `"8"`). -/
theorem habitat_aggregation_two_rows
    (z t : String) (hz : pstrip z = z) (hz0 : z ≠ "") (ht : pstrip t = t)
    (lb1 lb2 c1 c2 : Cell)
    (pe : Option (List EspRowRaw)) (fgT : Option (List TypoInfoRowRaw))
    (zin : List ZnInfoRowRaw)
    (ptax : Option (List TaxRowRaw)) (p6 : Option (List N2HabRowRaw))
    (p7 p8 : Option (List N2EspRowRaw)) (p9 : Option (List N2InfoRowRaw))
    (p10 : Option (List HabrefRowRaw)) :
    ∃ r, export_habitats_znieff
        ⟨pe, some [⟨some z, some "007", lb1, c1, some "E1", some "Lib1", some t⟩,
          ⟨some z, some "08", lb2, c2, some "H1", some "LibH", some t⟩],
          fgT, some zin, ptax, p6, p7, p8, p9, p10⟩ [z] = .ok [r] ∧
      r.codeEunis = "E1" ∧ r.libEunis = "Lib1" ∧ r.codeHic = "H1" ∧
      r.libHic = "LibH" ∧ r.codeTypologie = "007;08" := by
  have hq : allBlank [z] = false := by
    simp [allBlank, hz, hz0]
  have hfil : filterParquet HabRowRaw.nm_sffzn [z]
      [⟨some z, some "007", lb1, c1, some "E1", some "Lib1", some t⟩,
       ⟨some z, some "08", lb2, c2, some "H1", some "LibH", some t⟩] =
      [⟨some z, some "007", lb1, c1, some "E1", some "Lib1", some t⟩,
       ⟨some z, some "08", lb2, c2, some "H1", some "LibH", some t⟩] := by
    simp [filterParquet, cellStr]
  have hnorm : ([⟨some z, some "007", lb1, c1, some "E1", some "Lib1", some t⟩,
      ⟨some z, some "08", lb2, c2, some "H1", some "LibH", some t⟩] :
        List HabRowRaw).map normHabRow =
      [⟨z, "007", pstrip (cellEmpty lb1), pstrip (cellEmpty c1), "E1", "Lib1", t, "7"⟩,
       ⟨z, "08", pstrip (cellEmpty lb2), pstrip (cellEmpty c2), "H1", "LibH", t, "8"⟩] := by
    simp only [List.map_cons, List.map_nil, normHabRow, cellStr, cellEmpty, hz, ht,
      show pstrip "007" = "007" from rfl, show pstrip "08" = "08" from rfl,
      show pstrip "E1" = "E1" from rfl, show pstrip "Lib1" = "Lib1" from rfl,
      show pstrip "H1" = "H1" from rfl, show pstrip "LibH" = "LibH" from rfl,
      show lstripZeros "007" = "7" from rfl, show lstripZeros "08" = "8" from rfl]
  have hkeys : groupKeysOf
      [⟨z, "007", pstrip (cellEmpty lb1), pstrip (cellEmpty c1), "E1", "Lib1", t, "7"⟩,
       ⟨z, "08", pstrip (cellEmpty lb2), pstrip (cellEmpty c2), "H1", "LibH", t, "8"⟩] =
      [(z, t)] := by
    simp [groupKeysOf, dedupBy, dedupByAux, habKey]
  have hgrp : groupRowsOf
      [⟨z, "007", pstrip (cellEmpty lb1), pstrip (cellEmpty c1), "E1", "Lib1", t, "7"⟩,
       ⟨z, "08", pstrip (cellEmpty lb2), pstrip (cellEmpty c2), "H1", "LibH", t, "8"⟩]
      (z, t) =
      [⟨z, "007", pstrip (cellEmpty lb1), pstrip (cellEmpty c1), "E1", "Lib1", t, "7"⟩,
       ⟨z, "08", pstrip (cellEmpty lb2), pstrip (cellEmpty c2), "H1", "LibH", t, "8"⟩] := by
    simp [groupRowsOf, habKey]
  have hmain : mainAgg
      [⟨z, "007", pstrip (cellEmpty lb1), pstrip (cellEmpty c1), "E1", "Lib1", t, "7"⟩,
       ⟨z, "08", pstrip (cellEmpty lb2), pstrip (cellEmpty c2), "H1", "LibH", t, "8"⟩] =
      [⟨(z, t),
        first_valid [pstrip (cellEmpty c1), pstrip (cellEmpty c2)],
        "007;08",
        join_unique [pstrip (cellEmpty lb1), pstrip (cellEmpty lb2)]⟩] := by
    rw [mainAgg, hkeys]
    simp only [List.map_cons, List.map_nil, hgrp]
    rw [show join_unique ["007", "08"] = "007;08" from rfl]
  have hfam7 : famTable "7"
      [⟨z, "007", pstrip (cellEmpty lb1), pstrip (cellEmpty c1), "E1", "Lib1", t, "7"⟩,
       ⟨z, "08", pstrip (cellEmpty lb2), pstrip (cellEmpty c2), "H1", "LibH", t, "8"⟩] =
      [((z, t), "E1", "Lib1")] := by
    simp only [famTable, List.filter_cons, List.filter_nil,
      show (("7" : String) = "7") = True by simp,
      show (("8" : String) = "7") = False by simp, decide_True, decide_False,
      if_true, if_false]
    simp [groupKeysOf, groupRowsOf, dedupBy, dedupByAux, habKey,
      show join_pipe ["E1"] = "E1" from rfl, show join_pipe ["Lib1"] = "Lib1" from rfl]
  have hfam8 : famTable "8"
      [⟨z, "007", pstrip (cellEmpty lb1), pstrip (cellEmpty c1), "E1", "Lib1", t, "7"⟩,
       ⟨z, "08", pstrip (cellEmpty lb2), pstrip (cellEmpty c2), "H1", "LibH", t, "8"⟩] =
      [((z, t), "H1", "LibH")] := by
    simp only [famTable, List.filter_cons, List.filter_nil,
      show (("7" : String) = "8") = False by simp,
      show (("8" : String) = "8") = True by simp, decide_True, decide_False,
      if_true, if_false]
    simp [groupKeysOf, groupRowsOf, dedupBy, dedupByAux, habKey,
      show join_pipe ["H1"] = "H1" from rfl, show join_pipe ["LibH"] = "LibH" from rfl]
  refine ⟨habGroupRow
      [⟨z, "007", pstrip (cellEmpty lb1), pstrip (cellEmpty c1), "E1", "Lib1", t, "7"⟩,
       ⟨z, "08", pstrip (cellEmpty lb2), pstrip (cellEmpty c2), "H1", "LibH", t, "8"⟩]
      fgT
      (dedupBy ZnInfoRow.idZnieff (fun _ => true)
        (zin.map (fun r0 => ZnInfoRow.mk (pstrip (cellStr r0.nm_sffzn)) r0.lb_zn r0.ty_zone)))
      ⟨(z, t), first_valid [pstrip (cellEmpty c1), pstrip (cellEmpty c2)], "007;08",
        join_unique [pstrip (cellEmpty lb1), pstrip (cellEmpty lb2)]⟩,
    ?_, ?_, ?_, ?_, ?_, ?_⟩
  · simp only [export_habitats_znieff, hq, Bool.false_eq_true, if_false,
      Except.bind, Except.pure, bind, pure, ensureRead, load_znieff_info,
      Except.map, hfil]
    rw [if_neg (by simp)]
    rw [aggregateHabitatsZnieff_eq_map _ _ _ (load_znieff_keys_nodup zin), hnorm,
      hmain]
    rfl
  · simp only [habGroupRow, hfam7]
    simp [cellEmpty]
  · simp only [habGroupRow, hfam7]
    simp [cellEmpty]
  · simp only [habGroupRow, hfam8]
    simp [cellEmpty]
  · simp only [habGroupRow, hfam8]
    simp [cellEmpty]
  · simp [habGroupRow]

/-- Witness for C1 at a concrete zone and typology-info id. -/
theorem habitat_aggregation_two_rows_witness :
    ∃ r, export_habitats_znieff
        ⟨none,
          some [⟨some "930020000", some "007", none, none, some "E1", some "Lib1",
            some "T1"⟩,
          ⟨some "930020000", some "08", none, none, some "H1", some "LibH",
            some "T1"⟩],
          none, some [], none, none, none, none, none, none⟩ ["930020000"] = .ok [r] ∧
      r.codeEunis = "E1" ∧ r.libEunis = "Lib1" ∧ r.codeHic = "H1" ∧
      r.libHic = "LibH" ∧ r.codeTypologie = "007;08" :=
  habitat_aggregation_two_rows "930020000" "T1" rfl (by decide) rfl
    none none none none none none [] none none none none none none

/-! ## Claim C8: left-join semantics of the species exports -/

theorem length_insSort (lt : α → α → Bool) (l : List α) :
    (insSort lt l).length = l.length :=
  (insSort_perm lt l).length_eq

/-- C8 (ZNIEFF half): a filtered species row whose `cd_nom` matches no TAXREF
entry still reaches the output (with `none`, i.e. empty, scientific name), and
the output row count is never below the filtered row count. -/
theorem especes_znieff_left_join
    (espT : List EspRowRaw) (tax : List TaxRowRaw) (zin : List ZnInfoRowRaw)
    (p2 : Option (List HabRowRaw)) (p3 : Option (List TypoInfoRowRaw))
    (p6 : Option (List N2HabRowRaw)) (p7 p8 : Option (List N2EspRowRaw))
    (p9 : Option (List N2InfoRowRaw)) (p10 : Option (List HabrefRowRaw))
    (codes : List String) (hq : allBlank codes = false)
    (out : List EspZnOutRow)
    (h : export_especes_znieff
      ⟨some espT, p2, p3, some zin, some tax, p6, p7, p8, p9, p10⟩ codes = .ok out) :
    (filterParquet EspRowRaw.nm_sffzn codes espT).length ≤ out.length ∧
    ∀ r ∈ (filterParquet EspRowRaw.nm_sffzn codes espT).map normEspRow,
      (∀ tr ∈ tax, pstrip (cellStr tr.cd_nom) ≠ r.cdNom) →
      ∃ o ∈ out, o.cdNom = r.cdNom ∧ o.idZnieff = r.nm ∧
        o.nomScientifique = none ∧ cellEmpty o.nomScientifique = "" := by
  by_cases hdf : (filterParquet EspRowRaw.nm_sffzn codes espT).isEmpty = true
  · have hfe : filterParquet EspRowRaw.nm_sffzn codes espT = [] :=
      List.isEmpty_iff.mp hdf
    rw [hfe]
    exact ⟨Nat.zero_le _, by simp⟩
  · cases hrows : especesZnieffRows
        ⟨some espT, p2, p3, some zin, some tax, p6, p7, p8, p9, p10⟩ codes with
    | error e =>
      rw [export_especes_znieff, hrows] at h
      exact absurd h (by simp [Except.map])
    | ok pre =>
      rw [export_especes_znieff, hrows] at h
      simp only [Except.map] at h
      injection h with h2
      subst h2
      simp only [especesZnieffRows, hq, Bool.false_eq_true, if_false, hdf,
        Except.bind, Except.pure, bind, pure, ensureRead, load_znieff_info,
        Except.map] at hrows
      injection hrows with h3
      subst h3
      constructor
      · rw [length_insSort, List.length_map]
        calc (filterParquet EspRowRaw.nm_sffzn codes espT).length
            = ((filterParquet EspRowRaw.nm_sffzn codes espT).map normEspRow).length := by
              rw [List.length_map]
          _ ≤ _ := length_le_mergeLeft _ _ _ _ _
          _ ≤ _ := length_le_mergeLeft _ _ _ _ _
      · intro r hr hnm
        have hfilnil : (tax.map (fun tr => (pstrip (cellStr tr.cd_nom), tr.lb_nom))).filter
            (fun b => b.1 = r.cdNom) = [] := by
          rw [List.filter_eq_nil_iff]
          intro b hb
          obtain ⟨tr, htr, rfl⟩ := List.mem_map.mp hb
          simpa using hnm tr htr
        have h1 : (r, (none : Option (String × Cell))) ∈
            mergeLeft EspMidRow.cdNom Prod.fst (fun a b => (a, b))
              ((filterParquet EspRowRaw.nm_sffzn codes espT).map normEspRow)
              (tax.map (fun tr => (pstrip (cellStr tr.cd_nom), tr.lb_nom))) :=
          mem_mergeLeft_of_no_match _ _ _ _ _ r hr hfilnil
        obtain ⟨ob, h2⟩ := exists_mem_mergeLeft
          (fun x => x.1.nm) ZnInfoRow.idZnieff (fun a b => (a, b)) _
          (dedupBy ZnInfoRow.idZnieff (fun _ => true)
            (zin.map (fun r0 => ZnInfoRow.mk (pstrip (cellStr r0.nm_sffzn))
              r0.lb_zn r0.ty_zone)))
          (r, none) h1
        refine ⟨(⟨r.nm, ob.bind ZnInfoRow.nomZnieff, ob.bind ZnInfoRow.typeZnieff,
          r.groupeTaxo, none, r.cdRef, r.cdNom, typeEspeceOf r.fgEsp⟩ : EspZnOutRow),
          ?_, rfl, rfl, rfl, rfl⟩
        have hmem : ((r, (none : Option (String × Cell))), ob) ∈
            mergeLeft (fun x => x.1.nm) ZnInfoRow.idZnieff (fun a b => (a, b))
              (mergeLeft EspMidRow.cdNom Prod.fst (fun a b => (a, b))
                ((filterParquet EspRowRaw.nm_sffzn codes espT).map normEspRow)
                (tax.map (fun tr => (pstrip (cellStr tr.cd_nom), tr.lb_nom))))
              (dedupBy ZnInfoRow.idZnieff (fun _ => true)
                (zin.map (fun r0 => ZnInfoRow.mk (pstrip (cellStr r0.nm_sffzn))
                  r0.lb_zn r0.ty_zone))) := h2
        rw [(insSort_perm espKeyLt _).mem_iff]
        exact List.mem_map_of_mem _ hmem

/-- C8 (N2000 half): same left-join preservation for `export_especes_n2000`. -/
theorem especes_n2000_left_join
    (ri ra : List N2EspRowRaw) (tax : List TaxRowRaw) (infos : List N2InfoRowRaw)
    (p1 : Option (List EspRowRaw)) (p2 : Option (List HabRowRaw))
    (p3 : Option (List TypoInfoRowRaw)) (p4 : Option (List ZnInfoRowRaw))
    (p6 : Option (List N2HabRowRaw)) (p10 : Option (List HabrefRowRaw))
    (codes : List String) (hq : allBlank codes = false)
    (out : List N2EspOutRow)
    (h : export_especes_n2000
      ⟨p1, p2, p3, p4, some tax, p6, some ri, some ra, some infos, p10⟩ codes = .ok out) :
    ((n2EspNorm "Espèce inscrite" ri ++ n2EspNorm "Espèce autre" ra).filter
      (fun r => r.site ∈ n2CodeSet codes)).length ≤ out.length ∧
    ∀ r ∈ (n2EspNorm "Espèce inscrite" ri ++ n2EspNorm "Espèce autre" ra).filter
        (fun r => r.site ∈ n2CodeSet codes),
      (∀ tr ∈ tax, pstrip (cellStr tr.cd_nom) ≠ r.cdNom) →
      ∃ o ∈ out, o.cdNom = r.cdNom ∧ o.idN2000 = r.site ∧
        o.nomScientifique = none ∧ cellEmpty o.nomScientifique = "" := by
  by_cases hdf : ((n2EspNorm "Espèce inscrite" ri ++ n2EspNorm "Espèce autre" ra).filter
      (fun r => r.site ∈ n2CodeSet codes)).isEmpty = true
  · have hfe := List.isEmpty_iff.mp hdf
    rw [hfe]
    exact ⟨Nat.zero_le _, by simp⟩
  · simp only [export_especes_n2000, hq, Bool.false_eq_true, if_false, hdf,
      Except.bind, Except.pure, bind, pure, ensureRead, load_n2000_info,
      Except.map] at h
    injection h with h2
    subst h2
    constructor
    · rw [List.length_map]
      exact Nat.le_trans (length_le_mergeLeft _ _ _ _ _)
        (length_le_mergeLeft _ _ _ _ _)
    · intro r hr hnm
      have hfilnil : (tax.map (fun tr => (pstrip (cellStr tr.cd_nom), tr.lb_nom))).filter
          (fun b => b.1 = r.cdNom) = [] := by
        rw [List.filter_eq_nil_iff]
        intro b hb
        obtain ⟨tr, htr, rfl⟩ := List.mem_map.mp hb
        simpa using hnm tr htr
      have h1 : (r, (none : Option (String × Cell))) ∈
          mergeLeft N2EspMidRow.cdNom Prod.fst (fun a b => (a, b))
            ((n2EspNorm "Espèce inscrite" ri ++ n2EspNorm "Espèce autre" ra).filter
              (fun r => r.site ∈ n2CodeSet codes))
            (tax.map (fun tr => (pstrip (cellStr tr.cd_nom), tr.lb_nom))) :=
        mem_mergeLeft_of_no_match _ _ _ _ _ r hr hfilnil
      obtain ⟨ob, h2⟩ := exists_mem_mergeLeft
        (fun x => x.1.site) N2InfoRow.sitecode (fun a b => (a, b)) _
        (infos.map (fun r0 => N2InfoRow.mk (pyUpper (pstrip (cellStr r0.sitecode)))
          r0.site_name
          (match typeMapVal (pstrip (cellStr r0.ty_zone)) with
           | some l => some l
           | none => r0.ty_zone)))
        (r, none) h1
      refine ⟨(⟨r.site, ob.bind N2InfoRow.siteName, ob.bind N2InfoRow.tyZone,
        (taxgroupMapVal r.taxgroup).getD r.taxgroup, none, r.cdNom, r.cdRef,
        r.typeEspece⟩ : N2EspOutRow), ?_, rfl, rfl, rfl, rfl⟩
      exact List.mem_map_of_mem _ h2

/-- C8: in both species exports a filtered row whose taxonomic key has no
match in TAXREF still appears in the output, with a missing (`none`)
scientific name rendered as the empty string, and left-join cardinality is
preserved: the output row count is never below the filtered row count. -/
theorem species_left_join_preserved
    (espT : List EspRowRaw) (tax : List TaxRowRaw) (zin : List ZnInfoRowRaw)
    (ri ra : List N2EspRowRaw) (infos : List N2InfoRowRaw)
    (p2 : Option (List HabRowRaw)) (p3 : Option (List TypoInfoRowRaw))
    (p6 : Option (List N2HabRowRaw)) (p7 p8 : Option (List N2EspRowRaw))
    (p9 : Option (List N2InfoRowRaw)) (p10 : Option (List HabrefRowRaw))
    (p1 : Option (List EspRowRaw)) (p2' : Option (List HabRowRaw))
    (p3' : Option (List TypoInfoRowRaw)) (p4' : Option (List ZnInfoRowRaw))
    (p6' : Option (List N2HabRowRaw)) (p10' : Option (List HabrefRowRaw))
    (codes : List String) (hq : allBlank codes = false) :
    (∀ out, export_especes_znieff
        ⟨some espT, p2, p3, some zin, some tax, p6, p7, p8, p9, p10⟩ codes = .ok out →
      (filterParquet EspRowRaw.nm_sffzn codes espT).length ≤ out.length ∧
      ∀ r ∈ (filterParquet EspRowRaw.nm_sffzn codes espT).map normEspRow,
        (∀ tr ∈ tax, pstrip (cellStr tr.cd_nom) ≠ r.cdNom) →
        ∃ o ∈ out, o.cdNom = r.cdNom ∧ o.idZnieff = r.nm ∧
          o.nomScientifique = none ∧ cellEmpty o.nomScientifique = "") ∧
    (∀ out, export_especes_n2000
        ⟨p1, p2', p3', p4', some tax, p6', some ri, some ra, some infos, p10'⟩ codes =
          .ok out →
      ((n2EspNorm "Espèce inscrite" ri ++ n2EspNorm "Espèce autre" ra).filter
        (fun r => r.site ∈ n2CodeSet codes)).length ≤ out.length ∧
      ∀ r ∈ (n2EspNorm "Espèce inscrite" ri ++ n2EspNorm "Espèce autre" ra).filter
          (fun r => r.site ∈ n2CodeSet codes),
        (∀ tr ∈ tax, pstrip (cellStr tr.cd_nom) ≠ r.cdNom) →
        ∃ o ∈ out, o.cdNom = r.cdNom ∧ o.idN2000 = r.site ∧
          o.nomScientifique = none ∧ cellEmpty o.nomScientifique = "") :=
  ⟨fun out h => especes_znieff_left_join espT tax zin p2 p3 p6 p7 p8 p9 p10
      codes hq out h,
   fun out h => especes_n2000_left_join ri ra tax infos p1 p2' p3' p4' p6' p10'
      codes hq out h⟩

/-- Witness for C8: one unmatched species row per export (TAXREF empty),
present in the output with a missing scientific name. -/
theorem species_left_join_preserved_witness :
    ((filterParquet EspRowRaw.nm_sffzn ["930020000"]
        [⟨some "930020000", some "99", some "7777", none, none⟩]).length ≤
      ([⟨"930020000", none, none, none, none, "99", "7777", none⟩] :
        List EspZnOutRow).length) ∧
    (∃ o ∈ ([⟨"930020000", none, none, none, none, "99", "7777", none⟩] :
        List EspZnOutRow), o.cdNom = "7777" ∧ o.idZnieff = "930020000" ∧
      o.nomScientifique = none ∧ cellEmpty o.nomScientifique = "") ∧
    (∃ o ∈ ([⟨"FR1234567", none, none, "Oiseaux", none, "8888", "11",
        "Espèce inscrite"⟩] : List N2EspOutRow), o.cdNom = "8888" ∧
      o.idN2000 = "FR1234567" ∧ o.nomScientifique = none ∧
      cellEmpty o.nomScientifique = "") := by
  have h1 := (species_left_join_preserved
    [⟨some "930020000", some "99", some "7777", none, none⟩] [] []
    [⟨some "FR1234567", some "8888", some "11", some "B"⟩] [] []
    none none none none none none none none none none none none none
    ["930020000"] rfl).1
    [⟨"930020000", none, none, none, none, "99", "7777", none⟩] rfl
  have h2 := (species_left_join_preserved
    [⟨some "930020000", some "99", some "7777", none, none⟩] [] []
    [⟨some "FR1234567", some "8888", some "11", some "B"⟩] [] []
    none none none none none none none none none none none none none
    ["FR1234567"] rfl).2
    [⟨"FR1234567", none, none, "Oiseaux", none, "8888", "11", "Espèce inscrite"⟩] rfl
  refine ⟨h1.1, ?_, ?_⟩
  · exact h1.2 ⟨"930020000", "99", "7777", none, none⟩ (by decide)
      (fun tr htr => by simp at htr)
  · exact h2.2 ⟨"FR1234567", "8888", "11", "B", "Espèce inscrite"⟩ (by decide)
      (fun tr htr => by simp at htr)

/-! ## Order facts for the species sort (claim C10) -/

theorem lexLt_trans (a : List Char) :
    ∀ b c, lexLt a b = true → lexLt b c = true → lexLt a c = true := by
  induction a with
  | nil =>
    intro b c h1 h2
    cases b with
    | nil => simp [lexLt] at h1
    | cons b0 bs =>
      cases c with
      | nil => simp [lexLt] at h2
      | cons c0 cs => rfl
  | cons a0 as ih =>
    intro b c h1 h2
    cases b with
    | nil => simp [lexLt] at h1
    | cons b0 bs =>
      cases c with
      | nil => simp [lexLt] at h2
      | cons c0 cs =>
        simp only [lexLt] at h1 h2 ⊢
        by_cases hab : a0 < b0
        · rw [if_pos hab] at h1
          by_cases hbc : b0 < c0
          · rw [if_pos (lt_trans hab hbc)]
          · rw [if_neg hbc] at h2
            by_cases hcb : c0 < b0
            · rw [if_pos hcb] at h2; exact absurd h2 (by simp)
            · have hbceq : b0 = c0 := le_antisymm (not_lt.mp hcb) (not_lt.mp hbc)
              rw [if_pos (hbceq ▸ hab)]
        · rw [if_neg hab] at h1
          by_cases hba : b0 < a0
          · rw [if_pos hba] at h1; exact absurd h1 (by simp)
          · rw [if_neg hba] at h1
            have habeq : a0 = b0 := le_antisymm (not_lt.mp hba) (not_lt.mp hab)
            by_cases hbc : b0 < c0
            · rw [if_pos (habeq ▸ hbc)]
            · rw [if_neg hbc] at h2
              by_cases hcb : c0 < b0
              · rw [if_pos hcb] at h2; exact absurd h2 (by simp)
              · rw [if_neg hcb] at h2
                have hbceq : b0 = c0 := le_antisymm (not_lt.mp hcb) (not_lt.mp hbc)
                rw [if_neg (by rw [habeq, hbceq]; exact lt_irrefl c0),
                  if_neg (by rw [habeq, hbceq]; exact lt_irrefl c0)]
                exact ih bs cs h1 h2

theorem lexLt_asymm (a : List Char) :
    ∀ b, lexLt a b = true → lexLt b a = false := by
  induction a with
  | nil =>
    intro b h
    cases b with
    | nil => simp [lexLt] at h
    | cons b0 bs => rfl
  | cons a0 as ih =>
    intro b h
    cases b with
    | nil => simp [lexLt] at h
    | cons b0 bs =>
      simp only [lexLt] at h ⊢
      by_cases hab : a0 < b0
      · rw [if_neg (lt_asymm hab), if_pos hab]
      · rw [if_neg hab] at h
        by_cases hba : b0 < a0
        · rw [if_pos hba] at h; exact absurd h (by simp)
        · rw [if_neg hba] at h
          rw [if_neg hba, if_neg hab]
          exact ih bs h

theorem lexLt_connex (a : List Char) :
    ∀ b, lexLt a b = false → lexLt b a = false → a = b := by
  induction a with
  | nil =>
    intro b h1 _
    cases b with
    | nil => rfl
    | cons b0 bs => simp [lexLt] at h1
  | cons a0 as ih =>
    intro b h1 h2
    cases b with
    | nil => simp [lexLt] at h2
    | cons b0 bs =>
      simp only [lexLt] at h1 h2
      by_cases hab : a0 < b0
      · rw [if_pos hab] at h1; exact absurd h1 (by simp)
      · by_cases hba : b0 < a0
        · rw [if_pos hba] at h2; exact absurd h2 (by simp)
        · rw [if_neg hab, if_neg hba] at h1
          rw [if_neg hba, if_neg hab] at h2
          have habeq : a0 = b0 := le_antisymm (not_lt.mp hba) (not_lt.mp hab)
          rw [habeq, ih bs h1 h2]

theorem cellLt_trans (a b c : Cell) (h1 : cellLt a b = true)
    (h2 : cellLt b c = true) : cellLt a c = true := by
  cases a with
  | none => cases b <;> simp [cellLt] at h1
  | some sa =>
    cases b with
    | none => cases c <;> simp [cellLt] at h2
    | some sb =>
      cases c with
      | none => rfl
      | some sc =>
        simp only [cellLt, pyLt] at h1 h2 ⊢
        exact lexLt_trans _ _ _ h1 h2

theorem cellLt_asymm (a b : Cell) (h : cellLt a b = true) : cellLt b a = false := by
  cases a with
  | none => cases b <;> simp [cellLt] at h
  | some sa =>
    cases b with
    | none => rfl
    | some sb =>
      simp only [cellLt, pyLt] at h ⊢
      exact lexLt_asymm _ _ h

theorem cellLt_connex (a b : Cell) (h1 : cellLt a b = false)
    (h2 : cellLt b a = false) : a = b := by
  cases a with
  | none =>
    cases b with
    | none => rfl
    | some sb => simp [cellLt] at h2
  | some sa =>
    cases b with
    | none => simp [cellLt] at h1
    | some sb =>
      simp only [cellLt, pyLt] at h1 h2
      have hd : sa.data = sb.data := lexLt_connex _ _ h1 h2
      have hs : sa = sb := by
        cases sa; cases sb
        exact congrArg String.mk hd
      rw [hs]

theorem lexLt_irrefl (a : List Char) : lexLt a a = false := by
  cases h : lexLt a a with
  | false => rfl
  | true => exact absurd ((lexLt_asymm a a h) ▸ h) (by simp)

theorem cellLt_irrefl (a : Cell) : cellLt a a = false := by
  cases a with
  | none => rfl
  | some s =>
    simp only [cellLt, pyLt]
    exact lexLt_irrefl s.data

theorem espKeyLt_congr (a b c : EspZnOutRow)
    (hg : a.groupeTaxo = b.groupeTaxo) (hn : a.nomScientifique = b.nomScientifique) :
    espKeyLt c a = espKeyLt c b ∧ espKeyLt a c = espKeyLt b c := by
  constructor <;> simp [espKeyLt, hg, hn]

theorem espKeyLt_asymm (a b : EspZnOutRow) (h : espKeyLt a b = true) :
    espKeyLt b a = false := by
  simp only [espKeyLt, Bool.or_eq_true, Bool.and_eq_true, Bool.not_eq_true'] at h ⊢
  rcases h with h | ⟨⟨h1, h2⟩, h3⟩
  · rw [cellLt_asymm _ _ h]
    simp [h]
  · rw [h2]
    simp [h1, h2, cellLt_asymm _ _ h3]

theorem espKeyLt_trans (a b c : EspZnOutRow) (h1 : espKeyLt a b = true)
    (h2 : espKeyLt b c = true) : espKeyLt a c = true := by
  simp only [espKeyLt, Bool.or_eq_true, Bool.and_eq_true, Bool.not_eq_true'] at h1 h2 ⊢
  rcases h1 with h1 | ⟨⟨h1a, h1b⟩, h1c⟩
  · rcases h2 with h2 | ⟨⟨h2a, h2b⟩, h2c⟩
    · exact Or.inl (cellLt_trans _ _ _ h1 h2)
    · have := cellLt_connex _ _ h2a h2b
      exact Or.inl (this ▸ h1)
  · rcases h2 with h2 | ⟨⟨h2a, h2b⟩, h2c⟩
    · have := cellLt_connex _ _ h1a h1b
      exact Or.inl (this.symm ▸ h2)
    · have e1 := cellLt_connex _ _ h1a h1b
      have e2 := cellLt_connex _ _ h2a h2b
      refine Or.inr ⟨⟨by rw [e1, e2]; exact cellLt_irrefl _,
        by rw [e1, e2]; exact cellLt_irrefl _⟩, cellLt_trans _ _ _ h1c h2c⟩

theorem espKeyLt_tricho (a b : EspZnOutRow) (h1 : espKeyLt a b = false)
    (h2 : espKeyLt b a = false) :
    a.groupeTaxo = b.groupeTaxo ∧ a.nomScientifique = b.nomScientifique := by
  have hga : cellLt a.groupeTaxo b.groupeTaxo = false := by
    cases h : cellLt a.groupeTaxo b.groupeTaxo with
    | false => rfl
    | true => simp [espKeyLt, h] at h1
  have hgb : cellLt b.groupeTaxo a.groupeTaxo = false := by
    cases h : cellLt b.groupeTaxo a.groupeTaxo with
    | false => rfl
    | true => simp [espKeyLt, h] at h2
  refine ⟨cellLt_connex _ _ hga hgb, ?_⟩
  simp only [espKeyLt, hga, hgb, Bool.not_false, Bool.true_and,
    Bool.false_or] at h1 h2
  exact cellLt_connex _ _ h1 h2

theorem espKeyLt_neg_trans (a b c : EspZnOutRow) (h1 : espKeyLt b a = false)
    (h2 : espKeyLt c b = false) : espKeyLt c a = false := by
  cases hca : espKeyLt c a with
  | false => rfl
  | true =>
    exfalso
    cases hab : espKeyLt a b with
    | true =>
      have := espKeyLt_trans c a b hca hab
      rw [this] at h2
      exact absurd h2 (by simp)
    | false =>
      obtain ⟨hg, hn⟩ := espKeyLt_tricho a b hab h1
      have := (espKeyLt_congr a b c hg hn).1
      rw [← this, hca] at h2
      exact absurd h2 (by simp)

/-- C10: `export_especes_znieff` returns its enriched rows stably sorted by
(`Groupe taxonomique`, `Nom scientifique`): the output is pairwise
non-descending for the two-key comparison `espKeyLt` (string order with
missing values last, the pandas `sort_values` order), it is a permutation of
the pre-sort rows, and any two rows not strictly out of order — in particular
any two key-tied rows — keep their pre-sort relative order. -/
theorem especes_znieff_sorted (paths : LocalINPNPaths) (codes : List String)
    (pre out : List EspZnOutRow)
    (hpre : especesZnieffRows paths codes = .ok pre)
    (h : export_especes_znieff paths codes = .ok out) :
    List.Pairwise (fun a b => espKeyLt b a = false) out ∧
    out.Perm pre ∧
    ∀ a b, espKeyLt b a = false → ([a, b]).Sublist pre → ([a, b]).Sublist out := by
  have hout : out = insSort espKeyLt pre := by
    rw [export_especes_znieff, hpre] at h
    simp only [Except.map] at h
    injection h with h2
    exact h2.symm
  subst hout
  exact ⟨sorted_insSort espKeyLt espKeyLt_asymm espKeyLt_neg_trans pre,
    insSort_perm espKeyLt pre,
    fun a b hba hab => insSort_stable espKeyLt pre a b hba hab⟩

/-- Witness for C10: two rows, filtered in `Oiseaux`-before-`Amphibiens`
order, come out of the export sorted the other way round. -/
theorem especes_znieff_sorted_witness :
    List.Pairwise (fun a b => espKeyLt b a = false)
      ([⟨"930020000", none, none, some "Amphibiens", none, "8", "2", none⟩,
        ⟨"930020000", none, none, some "Oiseaux", none, "9", "1", none⟩] :
        List EspZnOutRow) ∧
    ([⟨"930020000", none, none, some "Amphibiens", none, "8", "2", none⟩,
      ⟨"930020000", none, none, some "Oiseaux", none, "9", "1", none⟩] :
        List EspZnOutRow).Perm
      [⟨"930020000", none, none, some "Oiseaux", none, "9", "1", none⟩,
       ⟨"930020000", none, none, some "Amphibiens", none, "8", "2", none⟩] := by
  have h := especes_znieff_sorted
    ⟨some [⟨some "930020000", some "9", some "1", none, some "Oiseaux"⟩,
      ⟨some "930020000", some "8", some "2", none, some "Amphibiens"⟩],
      none, none, some [], some [], none, none, none, none, none⟩
    ["930020000"]
    [⟨"930020000", none, none, some "Oiseaux", none, "9", "1", none⟩,
     ⟨"930020000", none, none, some "Amphibiens", none, "8", "2", none⟩]
    [⟨"930020000", none, none, some "Amphibiens", none, "8", "2", none⟩,
     ⟨"930020000", none, none, some "Oiseaux", none, "9", "1", none⟩]
    rfl rfl
  exact ⟨h.1, h.2.1⟩

end Biblio
